import Mathlib

/-!
Shallow embedding of the pharmacy-pos inventory ledger and sale-settlement
engine (Django models `catalog.Lot`, `catalog.StockMovement`,
`sales.Sale`, `sales.SaleItem`, `sales.SaleItemLot`, `sales.Payment`,
`sales.Customer`, and the API views `create_sale` / `update_sale`).

Conventions of the embedding:
- money (Python `Decimal`) is modelled as `ℚ`; `Decimal` addition,
  subtraction and multiplication are exact at the magnitudes admitted by the
  12-digit database columns, so plain `ℚ` arithmetic is faithful there.
  The two places where the 28-significant-digit context rounding of Python
  `Decimal` is observable (the division producing the weighted average unit
  price and the subsequent multiplication by the quantity) are modelled
  explicitly by `decRound`, and the 2-decimal-place quantisation that Django
  applies when persisting a `DecimalField` is modelled by `quantize2`.
- quantities are `ℕ`, dates are day ordinals (`ℤ`), identities are `ℕ`.
- the database is an explicit record `DB` of lists of rows; a Django
  `save()` is a pure state transformer; a raised exception inside an
  `@transaction.atomic` block is `Except.error` (the caller keeps the
  pre-transaction state, modelling the rollback).
-/

namespace PharmacyPos

/-- `StockMovement.MovementType`: `in` / `out` / `adjustment`. -/
inductive MovementType where
  | moveIn
  | moveOut
  | adjustment
deriving DecidableEq, Repr

/-- `Sale.Status`: `draft` / `paid` / `partial` (members of the Django
`TextChoices` enum; there is no other member). -/
inductive Status where
  | draft
  | paid
  | partialPaid
deriving DecidableEq, Repr

/-- Lookup of an attribute on the `Sale.Status` enum by name, as Python
attribute access does; `none` models the `AttributeError` raised for a name
that is not a member (e.g. `Sale.Status.PENDING`). -/
def Status.fromName : String → Option Status
  | "DRAFT" => some .draft
  | "PAID" => some .paid
  | "PARTIAL" => some .partialPaid
  | _ => none

/-- `Sale.DiscountType`: `amount` / `percentage`. -/
inductive DiscountType where
  | amount
  | percentage
deriving DecidableEq, Repr

/-- `catalog.Lot` row: `quantity` is the immutable initial quantity,
`remaining_quantity` the mutable on-hand count. -/
structure Lot where
  id : ℕ
  product_id : ℕ
  quantity : ℕ
  remaining_quantity : ℕ
  expiration_date : ℤ
  created_at : ℕ
  sale_price : ℚ
  is_active : Bool
deriving DecidableEq, Repr

/-- `catalog.StockMovement` row (audit log entry). -/
structure StockMovement where
  lot_id : ℕ
  movement_type : MovementType
  quantity : ℕ
deriving DecidableEq, Repr

/-- `sales.SaleItemLot` row: per-lot consumption record of a sale line. -/
structure SaleItemLot where
  sale_item_id : ℕ
  lot_id : ℕ
  quantity : ℕ
  unit_price : ℚ
deriving DecidableEq, Repr

/-- `sales.Sale` row.  `discount_amount` is the legacy column kept for
compatibility (it defaults to `0.00` and none of the modelled flows writes
it); `Sale.save` still reads it when it re-derives `subtotal`. -/
structure Sale where
  id : ℕ
  customer_id : Option ℕ
  subtotal : ℚ
  tax_amount : ℚ
  discount_type : DiscountType
  discount_value : ℚ
  discount_amount : ℚ
  total_amount : ℚ
  amount_paid : ℚ
  balance_due : ℚ
  status : Status
deriving DecidableEq, Repr

/-- `sales.SaleItem` row (one line per (sale, product)). -/
structure SaleItem where
  id : ℕ
  sale_id : ℕ
  product_id : ℕ
  quantity : ℕ
  unit_price : ℚ
  line_total : ℚ
deriving DecidableEq, Repr

/-- `sales.Payment` row. -/
structure Payment where
  id : ℕ
  sale_id : ℕ
  amount : ℚ
deriving DecidableEq, Repr

/-- `sales.Customer` row (`credit_balance` is derived). -/
structure Customer where
  id : ℕ
  credit_balance : ℚ
deriving DecidableEq, Repr

/-- The database state: one list of rows per table.  `products` holds the
existing product ids (the fields of `catalog.Product` play no role in the
claims beyond existence). -/
structure DB where
  products : List ℕ := []
  lots : List Lot := []
  movements : List StockMovement := []
  sale_item_lots : List SaleItemLot := []
  sales : List Sale := []
  items : List SaleItem := []
  payments : List Payment := []
  customers : List Customer := []
deriving DecidableEq, Repr

/-- UPDATE of the single lot row with the given primary key. -/
def DB.updateLot (db : DB) (l : Lot) : DB :=
  { db with lots := db.lots.map fun x => if x.id = l.id then l else x }

/-- SELECT of a lot row by primary key. -/
def DB.findLot (db : DB) (lotId : ℕ) : Option Lot :=
  db.lots.find? fun x => x.id = lotId

/-- `Lot.adjust_quantity` (catalog/models/lot.py:92-110): the signed-delta
mutator of `remaining_quantity`.  Raises (here: `Except.error`) when the new
value would be negative or would exceed the initial `quantity`; on success
persists the new value.  It does not touch any other table. -/
def Lot.adjust_quantity (lot : Lot) (quantity_delta : ℤ) : Except String Lot :=
  if (lot.remaining_quantity : ℤ) + quantity_delta < 0 then
    .error "Quantite insuffisante dans le lot."
  else if (lot.remaining_quantity : ℤ) + quantity_delta > (lot.quantity : ℤ) then
    .error "La quantite restante ne peut pas depasser la quantite initiale."
  else
    .ok { lot with remaining_quantity :=
      ((lot.remaining_quantity : ℤ) + quantity_delta).toNat }

/-- `lot.adjust_quantity(delta)` acting on the database: reads the row,
adjusts it, persists it (`lot.save(update_fields=[...])`). -/
def DB.adjustLot (db : DB) (lotId : ℕ) (quantity_delta : ℤ) :
    Except String DB :=
  match db.findLot lotId with
  | none => .error "Lot matching query does not exist."
  | some lot => (lot.adjust_quantity quantity_delta).map db.updateLot

/-- `StockMovement.apply_to_lot` (catalog/models/stock_movement.py:59-72):
an `adjustment` movement sets `remaining_quantity` to the movement's
quantity absolutely (no bound check); an `in` movement adds and an `out`
movement subtracts through the guarded `Lot.adjust_quantity`. -/
def DB.applyToLot (db : DB) (lotId : ℕ) (t : MovementType) (q : ℕ) :
    Except String DB :=
  match t with
  | .adjustment =>
    match db.findLot lotId with
    | none => .error "Lot matching query does not exist."
    | some lot => .ok (db.updateLot { lot with remaining_quantity := q })
  | .moveIn => db.adjustLot lotId (q : ℤ)
  | .moveOut => db.adjustLot lotId (-(q : ℤ))

/-- `StockMovement.save` for a new instance
(catalog/models/stock_movement.py:49-57): applies the movement to the lot
unless the transient `_skip_lot_update` attribute is set, then inserts the
movement row. -/
def DB.stockMovementCreate (db : DB) (skip_lot_update : Bool) (lotId : ℕ)
    (t : MovementType) (q : ℕ) : Except String DB :=
  let insert : DB → DB := fun d =>
    { d with movements := d.movements ++ [⟨lotId, t, q⟩] }
  if skip_lot_update then
    .ok (insert db)
  else
    (db.applyToLot lotId t q).map insert

/-- The FEFO ordering used by `order_by('expiration_date', 'created_at')`:
ascending expiration date, ties broken by ascending creation time. -/
def fefoLe (a b : Lot) : Prop :=
  a.expiration_date < b.expiration_date ∨
    (a.expiration_date = b.expiration_date ∧ a.created_at ≤ b.created_at)

instance : DecidableRel fefoLe := fun a b => by unfold fefoLe; infer_instance

instance : IsTotal Lot fefoLe where
  total a b := by
    rcases lt_trichotomy a.expiration_date b.expiration_date with h | h | h
    · exact Or.inl (Or.inl h)
    · rcases Nat.le_total a.created_at b.created_at with h2 | h2
      · exact Or.inl (Or.inr ⟨h, h2⟩)
      · exact Or.inr (Or.inr ⟨h.symm, h2⟩)
    · exact Or.inr (Or.inl h)

instance : IsTrans Lot fefoLe where
  trans a b c hab hbc := by
    rcases hab with h1 | ⟨h1, h1c⟩ <;> rcases hbc with h2 | ⟨h2, h2c⟩
    · exact Or.inl (h1.trans h2)
    · exact Or.inl (h2 ▸ h1)
    · exact Or.inl (h1 ▸ h2)
    · exact Or.inr ⟨h1.trans h2, h1c.trans h2c⟩

/-- The candidate queryset of `SaleItem._get_lots_for_sale`
(sales/models/sale_item.py:68-73): active lots of the product with a
strictly future expiration date and positive remaining quantity, ordered
by (expiration_date, created_at). -/
def DB.availableLots (db : DB) (productId : ℕ) (today : ℤ) : List Lot :=
  List.insertionSort fefoLe (db.lots.filter fun l =>
    l.product_id = productId && l.is_active && today < l.expiration_date &&
      0 < l.remaining_quantity)

/-- The allocation walk of `SaleItem._get_lots_for_sale`
(sales/models/sale_item.py:75-84): draw
`min(lot.remaining_quantity, remaining_quantity)` from each candidate in
order, stopping once the request is satisfied. -/
def fefoWalk : List Lot → ℕ → List (Lot × ℕ)
  | [], _ => []
  | lot :: rest, need =>
    if need = 0 then []
    else
      let quantity_from_lot := min lot.remaining_quantity need
      (lot, quantity_from_lot) :: fefoWalk rest (need - quantity_from_lot)

/-- `SaleItem._get_lots_for_sale` (sales/models/sale_item.py:57-93):
returns the `(lot, drawn_quantity)` pairs, or raises (`.error`) with the
requested and available quantities when the candidates cannot cover the
request. -/
def DB.get_lots_for_sale (db : DB) (productId : ℕ) (today : ℤ)
    (quantity_needed : ℕ) : Except (ℕ × ℕ) (List (Lot × ℕ)) :=
  let lots_to_use := fefoWalk (db.availableLots productId today) quantity_needed
  let drawn := (lots_to_use.map Prod.snd).sum
  if quantity_needed - drawn > 0 then
    .error (quantity_needed, drawn)
  else
    .ok lots_to_use

/-- One iteration of `SaleItem._create_sale_item_lots`
(sales/models/sale_item.py:99-119): insert the `SaleItemLot`, decrement the
lot through `adjust_quantity`, then create the `out` `StockMovement` —
whose own `save` applies the decrement a second time, since
`_skip_lot_update` is not set there. -/
def DB.createSaleItemLotStep (db : DB) (saleItemId : ℕ) (p : Lot × ℕ) :
    Except String DB := do
  let db1 := { db with sale_item_lots := db.sale_item_lots ++
    [(⟨saleItemId, p.1.id, p.2, p.1.sale_price⟩ : SaleItemLot)] }
  let db2 ← db1.adjustLot p.1.id (-(p.2 : ℤ))
  db2.stockMovementCreate false p.1.id .moveOut p.2

/-- `SaleItem._create_sale_item_lots` (sales/models/sale_item.py:95-119). -/
def DB.create_sale_item_lots (db : DB) (saleItemId : ℕ)
    (lots_to_use : List (Lot × ℕ)) : Except String DB :=
  lots_to_use.foldlM (fun d p => d.createSaleItemLotStep saleItemId p) db

/-- One iteration of `SaleItem._remove_sale_item_lots`
(sales/models/sale_item.py:127-142): restore the lot through
`adjust_quantity`, then create the `in` `StockMovement` — whose own `save`
applies the restoration a second time. -/
def DB.removeSaleItemLotStep (db : DB) (sil : SaleItemLot) :
    Except String DB := do
  let db1 ← db.adjustLot sil.lot_id (sil.quantity : ℤ)
  db1.stockMovementCreate false sil.lot_id .moveIn sil.quantity

/-- `SaleItem._remove_sale_item_lots` (sales/models/sale_item.py:121-145):
restore every consumed lot, append the reversal movements, then delete the
`SaleItemLot` rows. -/
def DB.remove_sale_item_lots (db : DB) (saleItemId : ℕ) :
    Except String DB := do
  let sale_item_lots := db.sale_item_lots.filter
    fun sil => sil.sale_item_id = saleItemId
  let db1 ← sale_item_lots.foldlM
    (fun d sil => d.removeSaleItemLotStep sil) db
  let kept := db1.sale_item_lots.filter fun sil => sil.sale_item_id ≠ saleItemId
  .ok { db1 with sale_item_lots := kept }

/-- The stock side of `SaleItem.save` for a new line
(sales/models/sale_item.py:170-174): run the FEFO allocation, then apply
`_create_sale_item_lots`.  The whole of `SaleItem.save` runs inside
`@transaction.atomic`, so an `.error` outcome means the caller keeps the
pre-call database state (rollback). -/
def DB.createSaleItemStock (db : DB) (saleItemId productId : ℕ) (today : ℤ)
    (quantity : ℕ) : Except String DB :=
  match db.get_lots_for_sale productId today quantity with
  | .error e =>
    .error ("Stock insuffisant. Quantite demandee: " ++ toString e.1 ++
      ", Quantite disponible: " ++ toString e.2)
  | .ok lots_to_use => db.create_sale_item_lots saleItemId lots_to_use

/-- The stock side of `SaleItem.delete` (sales/models/sale_item.py:185-191):
`_remove_sale_item_lots`, inside `@transaction.atomic`. -/
def DB.deleteSaleItemStock (db : DB) (saleItemId : ℕ) : Except String DB :=
  db.remove_sale_item_lots saleItemId

/-- SELECT of a sale row by primary key. -/
def DB.findSale (db : DB) (saleId : ℕ) : Option Sale :=
  db.sales.find? fun x => x.id = saleId

/-- UPDATE of the single sale row with the given primary key. -/
def DB.updateSale (db : DB) (s : Sale) : DB :=
  { db with sales := db.sales.map fun x => if x.id = s.id then s else x }

/-- SELECT of a customer row by primary key. -/
def DB.findCustomer (db : DB) (customerId : ℕ) : Option Customer :=
  db.customers.find? fun x => x.id = customerId

/-- `self.items.aggregate(total=Sum('line_total'))` (sales/models/sale.py):
raw items subtotal of a sale. -/
def DB.itemsSubtotal (db : DB) (saleId : ℕ) : ℚ :=
  ((db.items.filter fun it => it.sale_id = saleId).map
    (fun it => it.line_total)).sum

/-- `self.payments.aggregate(total=Sum('amount'))`: payments total of a
sale. -/
def DB.paymentsSum (db : DB) (saleId : ℕ) : ℚ :=
  ((db.payments.filter fun p => p.sale_id = saleId).map
    (fun p => p.amount)).sum

/-- `Sale.calculate_discount_amount` (sales/models/sale.py:129-136). -/
def Sale.calculate_discount_amount (s : Sale) (subtotal : ℚ) : ℚ :=
  if s.discount_type = .percentage then
    subtotal * (s.discount_value / 100)
  else
    s.discount_value

/-- `Sale.compute_status` (sales/models/sale.py:147-152). -/
def Sale.compute_status (s : Sale) : Status :=
  if s.amount_paid ≥ s.total_amount then .paid
  else if s.amount_paid > 0 then .partialPaid
  else .draft

/-- The credit aggregation of `Sale.recalculate_customer_credit`
(sales/models/sale.py:175-180): sum of `balance_due` over the customer's
sales with `balance_due > 0`. -/
def DB.creditSum (db : DB) (customerId : ℕ) : ℚ :=
  ((db.sales.filter fun s =>
    s.customer_id = some customerId && s.balance_due > 0).map
    (fun s => s.balance_due)).sum

/-- `Sale.recalculate_customer_credit` (sales/models/sale.py:164-182):
recompute the customer's `credit_balance` by full re-aggregation; a missing
customer id (`None`) or a nonexistent customer is a no-op. -/
def DB.recalculate_customer_credit (db : DB) (customerId : Option ℕ) : DB :=
  match customerId with
  | none => db
  | some cid =>
    match db.findCustomer cid with
    | none => db
    | some _ =>
      { db with customers := db.customers.map fun c =>
          if c.id = cid then { c with credit_balance := db.creditSum cid }
          else c }

/-- The sale row as re-derived in memory by `Sale.save`
(sales/models/sale.py:188-199) for the instance `s`: `subtotal` from the
current items and the legacy `discount_amount` column, then `total_amount`,
`balance_due` and `status`. -/
def DB.saleSaveRecord (db : DB) (s : Sale) : Sale :=
  { { s with
      subtotal := db.itemsSubtotal s.id - s.discount_amount,
      total_amount := db.itemsSubtotal s.id - s.discount_amount + s.tax_amount,
      balance_due := db.itemsSubtotal s.id - s.discount_amount + s.tax_amount -
        s.amount_paid } with
    status := Sale.compute_status { s with
      subtotal := db.itemsSubtotal s.id - s.discount_amount,
      total_amount := db.itemsSubtotal s.id - s.discount_amount + s.tax_amount,
      balance_due := db.itemsSubtotal s.id - s.discount_amount + s.tax_amount -
        s.amount_paid } }

/-- `Sale.save` for an already-persisted sale (sales/models/sale.py:184-203,
with `self.pk` set and the `_totals_updated` attribute never present) in
the flows that write the whole recomputed row: the plain `sale.save()` of
the customer assignment in `update_sale` (sales/api_views.py:880-890, no
`update_fields`), and the save of `update_totals_from_items`, whose
`update_fields=['subtotal', 'total_amount', 'balance_due', 'status']`
(sale.py:145) covers exactly the columns the recomputation changes — the
remaining columns hold their stored values in memory, so that narrowed
write coincides column-for-column with the full-row write modelled here.
(`refresh_payment_summary`'s narrower save is modelled separately by
`DB.saleSaveNarrowPay`.)  `save` re-derives `subtotal` from the current
items and the legacy `discount_amount` column, then `total_amount`,
`balance_due` and `status`, persists the row, and finally recomputes the
credit of the previous customer (when the customer reference changed) and
of the current customer. -/
def DB.saleSave (db : DB) (s : Sale) : DB :=
  let previous_customer_id := (db.findSale s.id).bind fun old => old.customer_id
  let items_subtotal := db.itemsSubtotal s.id
  let subtotal := items_subtotal - s.discount_amount
  let total_amount := subtotal + s.tax_amount
  let balance_due := total_amount - s.amount_paid
  let s2 := { s with subtotal := subtotal, total_amount := total_amount, balance_due := balance_due }
  let s3 := { s2 with status := s2.compute_status }
  let db2 := db.updateSale s3
  let db3 :=
    match previous_customer_id with
    | some prev =>
      if some prev ≠ s.customer_id then db2.recalculate_customer_credit (some prev)
      else db2
    | none => db2
  db3.recalculate_customer_credit s3.customer_id

/-- The SQL UPDATE performed by
`save(update_fields=['amount_paid', 'balance_due', 'status'])`
(sales/models/sale.py:159) on a stored row `x`: only those three columns
change, and they carry the values the `save` recomputation derived from the
in-memory instance `s` — `balance_due` and `status` use the total
re-derived from the current items (sale.py:195-199), not the stored
`total_amount`. -/
def DB.payPatch (db : DB) (s : Sale) (x : Sale) : Sale :=
  { x with amount_paid := (db.saleSaveRecord s).amount_paid, balance_due := (db.saleSaveRecord s).balance_due, status := (db.saleSaveRecord s).status }

/-- `Sale.save` as called by `Sale.refresh_payment_summary`
(sales/models/sale.py:159): the recomputation of sale.py:188-199 runs in
memory, but `update_fields=['amount_paid', 'balance_due', 'status']`
narrows the write — the stored `subtotal` and `total_amount` columns keep
their previous values.  The credit recomputations of sale.py:201-203 run
as on every save (the previous-customer branch is vacuous here: this path
never changes the customer reference). -/
def DB.saleSaveNarrowPay (db : DB) (s : Sale) : DB :=
  let previous_customer_id := (db.findSale s.id).bind fun old => old.customer_id
  let db2 := { db with sales := db.sales.map (fun x : Sale => if x.id = s.id then db.payPatch s x else x) }
  let db3 :=
    match previous_customer_id with
    | some prev =>
      if some prev ≠ s.customer_id then db2.recalculate_customer_credit (some prev)
      else db2
    | none => db2
  db3.recalculate_customer_credit s.customer_id

/-- `Sale.update_totals_from_items` (sales/models/sale.py:138-145): set
subtotal (after discount), total, balance and status in memory, then call
`save` — which re-derives all four of them again (from the legacy
`discount_amount`) before persisting. -/
def DB.update_totals_from_items (db : DB) (saleId : ℕ) : DB :=
  match db.findSale saleId with
  | none => db
  | some s =>
    let subtotal := db.itemsSubtotal saleId
    let discount_amount := s.calculate_discount_amount subtotal
    let s1 := { s with subtotal := subtotal - discount_amount }
    let s2 := { s1 with total_amount := s1.subtotal + s1.tax_amount }
    let s3 := { s2 with balance_due := s2.total_amount - s2.amount_paid }
    let s4 := { s3 with status := s3.compute_status }
    db.saleSave s4

/-- `Sale.refresh_payment_summary` (sales/models/sale.py:154-159): set
`amount_paid` to the payments total, re-derive balance and status in
memory, then `save(update_fields=['amount_paid', 'balance_due',
'status'])` — the narrowed save, which re-derives balance and status once
more (from the items-based total) before persisting just those three
columns. -/
def DB.refresh_payment_summary (db : DB) (saleId : ℕ) : DB :=
  match db.findSale saleId with
  | none => db
  | some s =>
    let payments_total := db.paymentsSum saleId
    let s1 := { s with amount_paid := payments_total }
    let s2 := { s1 with balance_due := s1.total_amount - payments_total }
    let s3 := { s2 with status := s2.compute_status }
    db.saleSaveNarrowPay s3

/-- The settlement tail of `SaleItem.save` (sales/models/sale_item.py:
148-183) for an add or a quantity modification: the line total is
recomputed as `unit_price * quantity`, the row is inserted or replaced, and
the parent sale's totals are updated.  (The stock allocation performed by
the same `save` is modelled by `DB.createSaleItemStock`; on its failure the
enclosing transaction rolls back and none of this survives.) -/
def DB.saleItemSaveSettle (db : DB) (it : SaleItem) : DB :=
  let it2 := { it with line_total := it.unit_price * (it.quantity : ℚ) }
  let exists_row := db.items.any fun x => x.id = it.id
  let items2 :=
    if exists_row then db.items.map fun x => if x.id = it.id then it2 else x
    else db.items ++ [it2]
  ({ db with items := items2 } : DB).update_totals_from_items it.sale_id

/-- The settlement tail of `SaleItem.delete`
(sales/models/sale_item.py:185-191): remove the row, then update the parent
sale's totals. -/
def DB.saleItemDeleteSettle (db : DB) (itemId saleId : ℕ) : DB :=
  ({ db with items := db.items.filter fun x => x.id ≠ itemId } : DB).update_totals_from_items saleId

/-- `Payment.save` for a new payment (sales/models/payment.py:52-54):
insert the row, then `sale.refresh_payment_summary()`. -/
def DB.paymentCreate (db : DB) (p : Payment) : DB :=
  ({ db with payments := db.payments ++ [p] } : DB).refresh_payment_summary p.sale_id

/-- `Payment.delete` (sales/models/payment.py:56-59): delete the row, then
`sale.refresh_payment_summary()`. -/
def DB.paymentDelete (db : DB) (paymentId saleId : ℕ) : DB :=
  ({ db with payments := db.payments.filter fun x => x.id ≠ paymentId } : DB).refresh_payment_summary saleId

/-- A sale save that changes (or keeps) the customer reference: the write
path of `Sale.save` taken when an edit form or `update_sale` assigns
`sale.customer` and saves (sales/models/sale.py:184-203). -/
def DB.saleSetCustomer (db : DB) (saleId : ℕ) (newCustomer : Option ℕ) : DB :=
  match db.findSale saleId with
  | none => db
  | some s => db.saleSave { s with customer_id := newCustomer }

/-! ### A model of Python `Decimal` context rounding

Python's default `decimal` context computes division and multiplication
correctly rounded to 28 significant digits with `ROUND_HALF_EVEN`; Django
quantises a `DecimalField(decimal_places=2)` to 2 decimal places (also
half-even) when persisting.  Addition, subtraction and multiplication of
the 12-digit monetary columns are exact at these magnitudes, so they are
modelled by plain `ℚ` arithmetic; the rounding is modelled exactly where it
is observable: the quotient `total_price / quantity` and the product
`unit_price * quantity`. -/

/-- Fuelled base-10 logarithm on `ℕ` (kernel-reducible). -/
def natLog10Fuel : ℕ → ℕ → ℕ
  | 0, _ => 0
  | fuel + 1, n => if n < 10 then 0 else natLog10Fuel fuel (n / 10) + 1

/-- Number of decimal digits of `n`, minus one (for `n ≥ 1`). -/
def natLog10 (n : ℕ) : ℕ := natLog10Fuel n n

/-- Fuelled helper for the base-10 logarithm of a rational below one:
smallest `k` with `1 ≤ x * 10 ^ k`. -/
def clogFuel : ℕ → ℚ → ℕ
  | 0, _ => 0
  | fuel + 1, x => if 1 ≤ x then 0 else clogFuel fuel (x * 10) + 1

/-- `⌊log₁₀ x⌋` for a positive rational: the unique `e` with
`10 ^ e ≤ x < 10 ^ (e + 1)`. -/
def ratLog10 (x : ℚ) : ℤ :=
  if 1 ≤ x then (natLog10 ⌊x⌋₊ : ℤ) else -(clogFuel x.den x : ℤ)

/-- Round a rational to the nearest integer, ties to even
(`ROUND_HALF_EVEN`). -/
def roundHalfEvenZ (x : ℚ) : ℤ :=
  let f := ⌊x⌋
  let r := x - (f : ℚ)
  if r < 1 / 2 then f
  else if 1 / 2 < r then f + 1
  else if Even f then f else f + 1

/-- Round a nonzero rational to `prec` significant decimal digits, ties to
even: the correctly rounded result of a Python `Decimal` operation under
the default context (`prec = 28`). -/
def decRound (prec : ℕ) (x : ℚ) : ℚ :=
  let e := ratLog10 |x|
  let s := e - (prec - 1 : ℕ)
  (roundHalfEvenZ (x * (10 : ℚ) ^ (-s)) : ℚ) * (10 : ℚ) ^ s

/-- Django's `adapt_decimalfield_value` for `decimal_places=2`: the value
actually stored in a money column. -/
def quantize2 (x : ℚ) : ℚ := (roundHalfEvenZ (x * 100) : ℚ) / 100

/-- `total_price` of a sale line (sales/api_views.py:456-467): the exact
sum of per-lot `sale_price * drawn_quantity` (exact also in `Decimal`
arithmetic at the admitted magnitudes). -/
def weightedTotalPrice (pairs : List (ℚ × ℕ)) : ℚ :=
  (pairs.map fun p => p.1 * (p.2 : ℚ)).sum

/-- `average_price = total_price / Decimal(str(quantity))`
(sales/api_views.py:469): the 28-digit correctly rounded quotient. -/
def average_price (total_price : ℚ) (quantity : ℕ) : ℚ :=
  decRound 28 (total_price / (quantity : ℚ))

/-- `self.line_total = self.unit_price * self.quantity` as recomputed by
`SaleItem.save` (sales/models/sale_item.py:162) from the full-precision
average price: the 28-digit correctly rounded product. -/
def lineTotalMem (unit_price : ℚ) (quantity : ℕ) : ℚ :=
  decRound 28 (unit_price * (quantity : ℚ))

/-- The `line_total` column value persisted for a sale line drawing the
given `(sale_price, quantity)` pairs. -/
def persistedLineTotal (pairs : List (ℚ × ℕ)) (quantity : ℕ) : ℚ :=
  quantize2 (lineTotalMem (average_price (weightedTotalPrice pairs) quantity) quantity)

/-- The `unit_price` column value persisted for that sale line. -/
def persistedUnitPrice (pairs : List (ℚ × ℕ)) (quantity : ℕ) : ℚ :=
  quantize2 (average_price (weightedTotalPrice pairs) quantity)

/-! ### The API views `create_sale` and `update_sale` (sales/api_views.py)

The JSON error responses, keyed by field, are modelled by the structured
`ValidationError` type; each constructor corresponds to one of the
`errors[...] = ...` assignments (or in-transaction early returns) of the
views.  The `anonymous_customer` branch (creation of a walk-in `Customer`
before validation) is not modelled: the requests used below identify the
customer by id, so that branch is never taken. -/

/-- The field-keyed validation errors produced by the views. -/
inductive ValidationError where
  | customerRequired
  | customerNotFound (customerId : ℕ)
  | invalidDiscountType
  | negativeDiscountValue
  | missingItems
  | productNotFound (productId : ℕ)
  | nonPositiveQuantity
  | insufficientStock (productId requested available : ℕ)
  | missingPayments
  | nonPositivePaymentAmount
  | invalidPaymentMethod
  | percentOver100
  | discountExceedsSubtotal
  | negativeSubtotal
deriving DecidableEq, Repr

/-- A `{product_id, quantity}` line request (quantity as sent, possibly
non-positive). -/
structure ItemRequest where
  product_id : ℕ
  quantity : ℤ
deriving DecidableEq, Repr

/-- An `{amount, payment_method, id?}` payment request. -/
structure PaymentRequest where
  amount : ℚ
  payment_method : String
  payment_id : Option ℕ := none
deriving DecidableEq, Repr

/-- The body of a `create_sale` / `update_sale` request. -/
structure SaleRequest where
  customer_id : Option ℕ := none
  items : List ItemRequest := []
  payments : List PaymentRequest := []
  tax_amount : ℚ := 0
  discount_type : String := "amount"
  discount_value : ℚ := 0
deriving DecidableEq, Repr

/-- A line that passed validation, as accumulated in `validated_items`. -/
structure ValidatedItem where
  product_id : ℕ
  quantity : ℕ
  unit_price : ℚ
  line_total : ℚ
  lots : List (Lot × ℕ)
deriving DecidableEq, Repr

/-- The allocation walk as written in the views
(sales/api_views.py:458-467 and 769-778): `remaining_qty` starts from the
requested quantity (minus restored stock in the update view, hence `ℤ`),
and each candidate contributes `min(lot.remaining_quantity, remaining_qty)`
until `remaining_qty <= 0`. -/
def viewWalk : List Lot → ℤ → List (Lot × ℕ)
  | [], _ => []
  | lot :: rest, remaining =>
    if remaining ≤ 0 then []
    else
      let qty_from_lot := min lot.remaining_quantity remaining.toNat
      (lot, qty_from_lot) :: viewWalk rest (remaining - qty_from_lot)

/-- `total_price` accumulated along the walk. -/
def walkTotalPrice (pairs : List (Lot × ℕ)) : ℚ :=
  (pairs.map fun p => p.1.sale_price * (p.2 : ℚ)).sum

/-- The allowed payment methods (sales/api_views.py:495). -/
def validPaymentMethods : List String :=
  ["cash", "card", "mobile_money", "bank_transfer", "other"]

/-- Customer / discount-type / discount-value / non-empty-lists validation
shared by both views (sales/api_views.py:395-418 and 694-717). -/
def baseValidation (db : DB) (req : SaleRequest) : List ValidationError :=
  (match req.customer_id with
   | none => [ValidationError.customerRequired]
   | some cid =>
     match db.findCustomer cid with
     | none => [ValidationError.customerNotFound cid]
     | some _ => []) ++
  (if req.discount_type ≠ "amount" ∧ req.discount_type ≠ "percentage" then
    [ValidationError.invalidDiscountType] else []) ++
  (if req.discount_value < 0 then [ValidationError.negativeDiscountValue] else []) ++
  (if req.items.isEmpty then [ValidationError.missingItems] else []) ++
  (if req.payments.isEmpty then [ValidationError.missingPayments] else [])

/-- Payment validation loop (sales/api_views.py:486-502). -/
def paymentsValidation (reqs : List PaymentRequest) :
    List ValidationError × List PaymentRequest :=
  reqs.foldl
    (fun acc p =>
      if p.amount ≤ 0 then (acc.1 ++ [.nonPositivePaymentAmount], acc.2)
      else if ¬ validPaymentMethods.contains p.payment_method then
        (acc.1 ++ [.invalidPaymentMethod], acc.2)
      else (acc.1, acc.2 ++ [p]))
    ([], [])

/-- One iteration of the item validation loop of `create_sale`
(sales/api_views.py:420-479). -/
def createItemStep (db : DB) (today : ℤ)
    (acc : List ValidationError × List ValidatedItem) (it : ItemRequest) :
    List ValidationError × List ValidatedItem :=
  if ¬ db.products.contains it.product_id then
    (acc.1 ++ [.productNotFound it.product_id], acc.2)
  else if it.quantity ≤ 0 then
    (acc.1 ++ [.nonPositiveQuantity], acc.2)
  else
    let quantity := it.quantity.toNat
    let available_lots := db.availableLots it.product_id today
    let total_available := (available_lots.map
      (fun l => l.remaining_quantity)).sum
    if total_available < quantity then
      (acc.1 ++ [.insufficientStock it.product_id quantity total_available],
        acc.2)
    else
      let lots_to_use := viewWalk available_lots (quantity : ℤ)
      let total_price := walkTotalPrice lots_to_use
      let avg := average_price total_price quantity
      let line_total := decRound 28 (avg * (quantity : ℚ))
      (acc.1, acc.2 ++ [⟨it.product_id, quantity, avg, line_total, lots_to_use⟩])

/-- Item validation loop of `create_sale` (sales/api_views.py:420-479):
pure — it reads lots but never writes anything. -/
def createItemsValidation (db : DB) (today : ℤ) (reqs : List ItemRequest) :
    List ValidationError × List ValidatedItem :=
  reqs.foldl (createItemStep db today) ([], [])

/-- The in-transaction discount computation of both views
(sales/api_views.py:516-540 and 850-874): rejects a percentage above 100
and an amount above the raw items subtotal, and returns the subtotal after
discount otherwise (also guarding against a negative result). -/
def discountStep (discount_type : String) (discount_value subtotal : ℚ) :
    Except ValidationError ℚ := do
  let discount_amount ←
    if discount_type = "percentage" then
      if discount_value > 100 then Except.error ValidationError.percentOver100
      else Except.ok (subtotal * (discount_value / 100))
    else
      if discount_value > subtotal then
        Except.error ValidationError.discountExceedsSubtotal
      else Except.ok discount_value
  let subtotal_after_discount := subtotal - discount_amount
  if subtotal_after_discount < 0 then
    Except.error ValidationError.negativeSubtotal
  else
    Except.ok subtotal_after_discount

/-- Result of a `create_sale` call. -/
inductive CreateSaleResult where
  | badRequest (errors : List ValidationError)
  | serverError
  | success
deriving DecidableEq, Repr

/-- `create_sale` (sales/api_views.py:340-638) for a request identifying
an existing or missing customer by id.  After a fully successful
validation the view enters the `transaction.atomic()` block, computes the
discount, and then evaluates `Sale.objects.create(..., status=
Sale.Status.PENDING, ...)`: the attribute lookup `Sale.Status.PENDING`
(modelled by `Status.fromName "PENDING"`) raises `AttributeError` because
the enum's only members are DRAFT/PAID/PARTIAL, the generic
`except Exception` at line 634 catches it, and the view answers 500 with
the database unchanged (the transaction held no writes yet).  The `.success`
arm models the remainder of the block (lines 546-632), which is unreachable
for every request because the attribute lookup precedes it. -/
def create_sale (db : DB) (req : SaleRequest) (today : ℤ) :
    CreateSaleResult × DB :=
  let itemsV := createItemsValidation db today req.items
  let paysV := paymentsValidation req.payments
  let errors := baseValidation db req ++ itemsV.1 ++ paysV.1
  if errors ≠ [] then (.badRequest errors, db)
  else
    let subtotal := (itemsV.2.map fun v => v.line_total).sum
    match discountStep req.discount_type req.discount_value subtotal with
    | .error e => (.badRequest [e], db)
    | .ok _ =>
      match Status.fromName "PENDING" with
      | none => (.serverError, db)
      | some _ => (.success, db)

/-- Outcome of the validation phase of `update_sale`
(sales/api_views.py:656-821).  This phase runs BEFORE the
`transaction.atomic()` block, yet it writes to the lot table: for a line
whose quantity increases, it "restores" the stock already reserved by the
existing line through `lot.adjust_quantity(...)`, each call persisting
immediately.  `done errors validated db` is the state when control reaches
line 817: if `errors` is non-empty the view answers 400 right there, with
the database left in `db`.  `crashed db` models an uncaught `ValueError`
from `adjust_quantity` during those restores (a 500 response, mutations up
to that point persisted). -/
inductive UpdateValidationOutcome where
  | crashed (db : DB)
  | done (errors : List ValidationError) (validated : List ValidatedItem) (db : DB)
deriving DecidableEq, Repr

/-- The pre-transaction restore loop (sales/api_views.py:763-767): each
`adjust_quantity` persists; a raise aborts the request mid-loop. -/
def restoreLots : DB → List SaleItemLot → DB × Bool
  | db, [] => (db, false)
  | db, sil :: rest =>
    match db.adjustLot sil.lot_id (sil.quantity : ℤ) with
    | .error _ => (db, true)
    | .ok db2 => restoreLots db2 rest

/-- Item validation loop of `update_sale` (sales/api_views.py:719-790),
threading the database because of the pre-transaction restores.  The
allocation walk runs over `available_lots`, the queryset snapshot taken
(and cached) before the restores of the current line, so it sees the
pre-restore remaining quantities. -/
def updateItemsValidation (saleId : ℕ) (today : ℤ) :
    DB → List ItemRequest → List ValidationError → List ValidatedItem →
    UpdateValidationOutcome
  | db, [], errs, vals => .done errs vals db
  | db, it :: rest, errs, vals =>
    if ¬ db.products.contains it.product_id then
      updateItemsValidation saleId today db rest
        (errs ++ [.productNotFound it.product_id]) vals
    else if it.quantity ≤ 0 then
      updateItemsValidation saleId today db rest
        (errs ++ [.nonPositiveQuantity]) vals
    else
      let quantity := it.quantity.toNat
      let available_lots := db.availableLots it.product_id today
      let existing_item := db.items.find? fun x =>
        x.sale_id = saleId ∧ x.product_id = it.product_id
      let existing_quantity := (existing_item.map fun x => x.quantity).getD 0
      let total_available :=
        (available_lots.map fun l => l.remaining_quantity).sum + existing_quantity
      if total_available < quantity then
        updateItemsValidation saleId today db rest
          (errs ++ [.insufficientStock it.product_id quantity total_available]) vals
      else
        let sils :=
          match existing_item with
          | some ex =>
            if quantity > existing_quantity then
              db.sale_item_lots.filter fun sil => sil.sale_item_id = ex.id
            else []
          | none => []
        let restored := restoreLots db sils
        if restored.2 then .crashed restored.1
        else
          let remaining0 : ℤ :=
            (quantity : ℤ) - ((sils.map fun sil => (sil.quantity : ℤ)).sum)
          let lots_to_use := viewWalk available_lots remaining0
          let total_price := walkTotalPrice lots_to_use
          let avg := average_price total_price quantity
          let line_total := decRound 28 (avg * (quantity : ℚ))
          updateItemsValidation saleId today restored.1 rest errs
            (vals ++ [⟨it.product_id, quantity, avg, line_total, lots_to_use⟩])

/-- The whole validation phase of `update_sale`
(sales/api_views.py:656-821) for a request identifying the customer by id:
base field validation, the (database-mutating) item loop, then payment
validation.  When the resulting error list is non-empty the view returns
status 400 at lines 817-821 without ever entering the atomic block — the
lot mutations performed by the item loop persist. -/
def update_sale_validation (db : DB) (saleId : ℕ) (req : SaleRequest)
    (today : ℤ) : UpdateValidationOutcome :=
  let base := baseValidation db req
  match updateItemsValidation saleId today db req.items [] [] with
  | .crashed db2 => .crashed db2
  | .done itemErrs vals db2 =>
    let paysV := paymentsValidation req.payments
    .done (base ++ itemErrs ++ paysV.1) vals db2

/-- A lot after one `_create_sale_item_lots` iteration: the decrement is
applied twice (once by `adjust_quantity`, once by the `out` movement's
`save`). -/
def decTwice (q : ℕ) (l : Lot) : Lot :=
  { l with remaining_quantity := l.remaining_quantity - 2 * q }

/-- A lot after one `_remove_sale_item_lots` iteration: the restoration is
applied twice (once by `adjust_quantity`, once by the `in` movement's
`save`). -/
def incTwice (q : ℕ) (l : Lot) : Lot :=
  { l with remaining_quantity := l.remaining_quantity + 2 * q }

/-- The `SaleItemLot` row inserted for an allocated pair. -/
def silOf (saleItemId : ℕ) (p : Lot × ℕ) : SaleItemLot :=
  ⟨saleItemId, p.1.id, p.2, p.1.sale_price⟩

/-- The settlement-relevant mutations of the model: sale-item add/modify,
sale-item delete, payment create, payment delete, and a sale save that
assigns the customer reference. -/
inductive SettleOp where
  | itemSave (it : SaleItem)
  | itemDelete (itemId saleId : ℕ)
  | payCreate (p : Payment)
  | payDelete (paymentId saleId : ℕ)
  | setCustomer (saleId : ℕ) (newCustomer : Option ℕ)
deriving DecidableEq, Repr

/-- The sale affected by a settlement operation. -/
def SettleOp.saleId : SettleOp → ℕ
  | .itemSave it => it.sale_id
  | .itemDelete _ saleId => saleId
  | .payCreate p => p.sale_id
  | .payDelete _ saleId => saleId
  | .setCustomer saleId _ => saleId

/-- The operations whose sale save goes through `refresh_payment_summary`
and therefore narrows the database write to
`amount_paid`/`balance_due`/`status` (sales/models/sale.py:159). -/
def SettleOp.viaPaymentRefresh : SettleOp → Bool
  | .payCreate _ => true
  | .payDelete _ _ => true
  | _ => false

/-- Dispatch of a settlement operation to the corresponding model
transition. -/
def DB.applySettleOp (db : DB) : SettleOp → DB
  | .itemSave it => db.saleItemSaveSettle it
  | .itemDelete itemId saleId => db.saleItemDeleteSettle itemId saleId
  | .payCreate p => db.paymentCreate p
  | .payDelete paymentId saleId => db.paymentDelete paymentId saleId
  | .setCustomer saleId newCustomer => db.saleSetCustomer saleId newCustomer

/-- The in-memory sale record passed to `save` by
`Sale.update_totals_from_items` (sales/models/sale.py:138-145). -/
def DB.updateTotalsRecord (db : DB) (saleId : ℕ) (s : Sale) : Sale :=
  { { s with
      subtotal := db.itemsSubtotal saleId -
        s.calculate_discount_amount (db.itemsSubtotal saleId),
      total_amount := db.itemsSubtotal saleId -
        s.calculate_discount_amount (db.itemsSubtotal saleId) + s.tax_amount,
      balance_due := db.itemsSubtotal saleId -
        s.calculate_discount_amount (db.itemsSubtotal saleId) + s.tax_amount -
        s.amount_paid } with
    status := Sale.compute_status { s with
      subtotal := db.itemsSubtotal saleId -
        s.calculate_discount_amount (db.itemsSubtotal saleId),
      total_amount := db.itemsSubtotal saleId -
        s.calculate_discount_amount (db.itemsSubtotal saleId) + s.tax_amount,
      balance_due := db.itemsSubtotal saleId -
        s.calculate_discount_amount (db.itemsSubtotal saleId) + s.tax_amount -
        s.amount_paid } }

/-- The in-memory sale record passed to `save` by
`Sale.refresh_payment_summary` (sales/models/sale.py:154-159). -/
def DB.refreshPaymentRecord (db : DB) (saleId : ℕ) (s : Sale) : Sale :=
  { { s with
      amount_paid := db.paymentsSum saleId,
      balance_due := s.total_amount - db.paymentsSum saleId } with
    status := Sale.compute_status { s with
      amount_paid := db.paymentsSum saleId,
      balance_due := s.total_amount - db.paymentsSum saleId } }

/-! ### Concrete states used by the per-claim witnesses -/

/-- Concrete state for the C6 witness: one lot with initial quantity 10 and
remaining quantity 7. -/
def dbC6 : DB :=
  { lots := [{ id := 1, product_id := 1, quantity := 10,
               remaining_quantity := 7, expiration_date := 100,
               created_at := 0, sale_price := 500, is_active := true }] }

/-- Concrete lot for the C10 witness. -/
def lotC10 : Lot :=
  { id := 1, product_id := 1, quantity := 10, remaining_quantity := 7,
    expiration_date := 100, created_at := 0, sale_price := 500,
    is_active := true }

/-- Concrete state for the C10 witness. -/
def dbC10 : DB := { lots := [lotC10] }

/-- Concrete sale for the C8 witness: zero discount, one item of
line total 30. -/
def saleC8 : Sale :=
  { id := 1, customer_id := none, subtotal := 0, tax_amount := 0,
    discount_type := .amount, discount_value := 0, discount_amount := 0,
    total_amount := 0, amount_paid := 0, balance_due := 0, status := .draft }

/-- Concrete state for the C8 witness. -/
def dbC8 : DB :=
  { sales := [saleC8],
    items := [{ id := 1, sale_id := 1, product_id := 1, quantity := 3,
                unit_price := 10, line_total := 30 }] }

/-- Concrete sale for the C5 witness: one line totalling 100, the stored
totals consistent with it, nothing paid yet. -/
def saleC5 : Sale :=
  { id := 1, customer_id := none, subtotal := 100, tax_amount := 0,
    discount_type := .amount, discount_value := 0, discount_amount := 0,
    total_amount := 100, amount_paid := 0, balance_due := 100, status := .draft }

/-- Concrete payment for the C5 witness. -/
def payC5 : Payment := { id := 7, sale_id := 1, amount := 40 }

/-- Concrete state for the C5 witness. -/
def dbC5 : DB :=
  { sales := [saleC5],
    items := [{ id := 1, sale_id := 1, product_id := 1, quantity := 4,
                unit_price := 25, line_total := 100 }] }

/-- Concrete sale for the C7 witness: belongs to customer 1, balance due
60. -/
def saleC7 : Sale :=
  { id := 1, customer_id := some 1, subtotal := 60, tax_amount := 0,
    discount_type := .amount, discount_value := 0, discount_amount := 0,
    total_amount := 60, amount_paid := 0, balance_due := 60, status := .draft }

/-- Concrete state for the C7 witness: two customers, the credit of
customer 1 currently reflecting the sale's balance. -/
def dbC7 : DB :=
  { sales := [saleC7],
    items := [{ id := 1, sale_id := 1, product_id := 1, quantity := 2,
                unit_price := 30, line_total := 60 }],
    customers := [{ id := 1, credit_balance := 60 },
                  { id := 2, credit_balance := 0 }] }

/-- Lots for the C3 witness, first creation order: L1 expires first and was
created first. -/
def lotC3a1 : Lot :=
  { id := 1, product_id := 1, quantity := 5, remaining_quantity := 5,
    expiration_date := 20250101, created_at := 0, sale_price := 100,
    is_active := true }

def lotC3a2 : Lot :=
  { id := 2, product_id := 1, quantity := 5, remaining_quantity := 5,
    expiration_date := 20250201, created_at := 1, sale_price := 100,
    is_active := true }

/-- Concrete state for the C3 witness, creation order L1 then L2. -/
def dbC3a : DB := { lots := [lotC3a1, lotC3a2], products := [1] }

/-- Lots for the C3 witness, opposite creation order: L2 (later expiry) was
created first. -/
def lotC3b1 : Lot :=
  { id := 1, product_id := 1, quantity := 5, remaining_quantity := 5,
    expiration_date := 20250101, created_at := 5, sale_price := 100,
    is_active := true }

def lotC3b2 : Lot :=
  { id := 2, product_id := 1, quantity := 5, remaining_quantity := 5,
    expiration_date := 20250201, created_at := 0, sale_price := 100,
    is_active := true }

/-- Concrete state for the C3 witness, creation order L2 then L1. -/
def dbC3b : DB := { lots := [lotC3b2, lotC3b1], products := [1] }

/-- Lot for the C1 witness. -/
def lotC1 : Lot :=
  { id := 1, product_id := 1, quantity := 10, remaining_quantity := 10,
    expiration_date := 20250101, created_at := 0, sale_price := 100,
    is_active := true }

/-- Concrete state for the C1 witness. -/
def dbC1 : DB := { lots := [lotC1], products := [1] }

/-- The state after the C1 witness sale line is created: the lot is
double-decremented (once by `adjust_quantity`, once by the `out` movement's
`save`), the `SaleItemLot` row and the `out` movement are inserted. -/
def db2C1 : DB :=
  { dbC1 with lots := [{ lotC1 with remaining_quantity := 4 }], movements := [⟨1, .moveOut, 3⟩], sale_item_lots := [⟨7, 1, 3, 100⟩] }

/-- C2 lot of product 1: 2 of its 10 units are reserved by the existing
sale line, so 8 remain. -/
def lotC2a : Lot :=
  { id := 1, product_id := 1, quantity := 10, remaining_quantity := 8,
    expiration_date := 20250101, created_at := 0, sale_price := 100,
    is_active := true }

/-- C2 lot of product 2: its entire sellable stock, 3 units. -/
def lotC2b : Lot :=
  { id := 2, product_id := 2, quantity := 3, remaining_quantity := 3,
    expiration_date := 20250101, created_at := 0, sale_price := 50,
    is_active := true }

/-- C2 pre-request state: sale 1 has one line (item 11, product 1,
quantity 2) backed by 2 units of lot 1. -/
def dbC2 : DB :=
  { products := [1, 2], lots := [lotC2a, lotC2b], sale_item_lots := [⟨11, 1, 2, 100⟩], items := [⟨11, 1, 1, 2, 100, 200⟩], customers := [⟨1, 0⟩] }

/-- C2 update request on sale 1: grow the product-1 line from 2 to 4 and
add a product-2 line of 5, of which only 3 are sellable. -/
def reqC2 : SaleRequest :=
  { customer_id := some 1, items := [⟨1, 4⟩, ⟨2, 5⟩], payments := [⟨100, "cash", none⟩] }

/-- The state `update_sale_validation` leaves behind on the C2 request:
lot 1 already "restored" to 10 although the request is answered 400. -/
def db2C2 : DB :=
  { dbC2 with lots := [{ lotC2a with remaining_quantity := 10 }, lotC2b] }

/-- C9 lot: product 1, 5 sellable units. -/
def lotC9 : Lot :=
  { id := 1, product_id := 1, quantity := 5, remaining_quantity := 5,
    expiration_date := 20250101, created_at := 0, sale_price := 100,
    is_active := true }

/-- C9 state: one product with stock and one registered customer. -/
def dbC9 : DB := { products := [1], lots := [lotC9], customers := [⟨1, 0⟩] }

/-- C9 request: fully valid — existing customer, one line of 2 units of a
product with 5 sellable units, one positive cash payment, no discount. -/
def reqC9 : SaleRequest :=
  { customer_id := some 1, items := [⟨1, 2⟩], payments := [⟨500, "cash", none⟩] }

/-! ### Shared helper lemmas -/

lemma find_lot_eq_id {db : DB} {lotId : ℕ} {lot : Lot}
    (h : db.findLot lotId = some lot) : lot.id = lotId := by
  have := List.find?_some h
  simpa using this

lemma find_update_self {xs : List Lot} {lotId : ℕ} {lot l2 : Lot}
    (h : xs.find? (fun x => x.id = lotId) = some lot) (hid : l2.id = lotId) :
    (xs.map fun x => if x.id = l2.id then l2 else x).find?
      (fun x => x.id = lotId) = some l2 := by
  induction xs with
  | nil => simp at h
  | cons y ys ih =>
    by_cases hy : y.id = lotId
    · have hyl : y = lot := by
        simp only [List.find?_cons, hy] at h
        simpa using h
      have : y.id = l2.id := by rw [hy, hid]
      simp [List.find?_cons, this, hid]
    · have hrest : ys.find? (fun x => x.id = lotId) = some lot := by
        simp only [List.find?_cons] at h
        split at h
        · next hc => simp at hc; exact absurd hc hy
        · exact h
      have hyne : ¬ y.id = l2.id := by rw [hid]; exact hy
      simp [List.find?_cons, hyne, hy, ih hrest]

lemma findLot_updateLot_self {db : DB} {lotId : ℕ} {lot l2 : Lot}
    (h : db.findLot lotId = some lot) (hid : l2.id = lotId) :
    (db.updateLot l2).findLot lotId = some l2 :=
  find_update_self h hid

lemma find_replace {α : Type} (key : α → ℕ) (b : α) (k : ℕ) (xs : List α) :
    (xs.map fun x => if key x = key b then b else x).find? (fun x => key x = k) =
      ((xs.find? fun x => key x = k).map fun x => if key x = key b then b else x) := by
  induction xs with
  | nil => rfl
  | cons y ys ih =>
    have hkeep : key (if key y = key b then b else y) = key y := by
      by_cases hb : key y = key b
      · rw [if_pos hb, hb]
      · rw [if_neg hb]
    by_cases hk : key y = k
    · rw [List.map_cons,
        List.find?_cons_of_pos _ (by simp only [decide_eq_true_eq, hkeep]; exact hk),
        List.find?_cons_of_pos _ (by simp only [decide_eq_true_eq]; exact hk)]
      rfl
    · rw [List.map_cons,
        List.find?_cons_of_neg _ (by simp only [decide_eq_true_eq, hkeep]; exact hk),
        List.find?_cons_of_neg _ (by simp only [decide_eq_true_eq]; exact hk), ih]

lemma find_map_keyed {α : Type} (key : α → ℕ) (g : α → α)
    (hg : ∀ x, key (g x) = key x) (k : ℕ) (xs : List α) :
    (xs.map g).find? (fun x => key x = k) =
      ((xs.find? fun x => key x = k).map g) := by
  induction xs with
  | nil => rfl
  | cons y ys ih =>
    by_cases hk : key y = k
    · rw [List.map_cons,
        List.find?_cons_of_pos _ (by simp only [decide_eq_true_eq, hg]; exact hk),
        List.find?_cons_of_pos _ (by simp only [decide_eq_true_eq]; exact hk)]
      rfl
    · rw [List.map_cons,
        List.find?_cons_of_neg _ (by simp only [decide_eq_true_eq, hg]; exact hk),
        List.find?_cons_of_neg _ (by simp only [decide_eq_true_eq]; exact hk), ih]

lemma findSale_updateSale (db : DB) (s : Sale) (saleId : ℕ) :
    (db.updateSale s).findSale saleId =
      ((db.findSale saleId).map fun x => if x.id = s.id then s else x) :=
  find_replace (fun x : Sale => x.id) s saleId db.sales

lemma findSale_updateSale_self {db : DB} {s old : Sale}
    (hfind : db.findSale s.id = some old) :
    (db.updateSale s).findSale s.id = some s := by
  have hid : old.id = s.id := by
    have := List.find?_some hfind
    simpa using this
  rw [findSale_updateSale, hfind]
  simp [hid]

lemma recalc_sales (db : DB) (co : Option ℕ) :
    (db.recalculate_customer_credit co).sales = db.sales := by
  unfold DB.recalculate_customer_credit
  split
  · rfl
  · split <;> rfl

lemma recalc_items (db : DB) (co : Option ℕ) :
    (db.recalculate_customer_credit co).items = db.items := by
  unfold DB.recalculate_customer_credit
  split
  · rfl
  · split <;> rfl

lemma recalc_payments (db : DB) (co : Option ℕ) :
    (db.recalculate_customer_credit co).payments = db.payments := by
  unfold DB.recalculate_customer_credit
  split
  · rfl
  · split <;> rfl

lemma findSale_congr {db db2 : DB} (h : db2.sales = db.sales) (saleId : ℕ) :
    db2.findSale saleId = db.findSale saleId := by
  unfold DB.findSale
  rw [h]

lemma paymentsSum_congr {db db2 : DB} (h : db2.payments = db.payments)
    (saleId : ℕ) : db2.paymentsSum saleId = db.paymentsSum saleId := by
  unfold DB.paymentsSum
  rw [h]

lemma itemsSubtotal_congr {db db2 : DB} (h : db2.items = db.items)
    (saleId : ℕ) : db2.itemsSubtotal saleId = db.itemsSubtotal saleId := by
  unfold DB.itemsSubtotal
  rw [h]

/-- `Sale.compute_status` agrees with the specification's three-case
derivation rule. -/
lemma compute_status_rule (s : Sale) :
    s.compute_status =
      (if s.amount_paid ≥ s.total_amount then Status.paid
       else if 0 < s.amount_paid ∧ s.amount_paid < s.total_amount then
         Status.partialPaid
       else Status.draft) := by
  unfold Sale.compute_status
  by_cases h1 : s.amount_paid ≥ s.total_amount
  · rw [if_pos h1, if_pos h1]
  · rw [if_neg h1, if_neg h1]
    have hlt : s.amount_paid < s.total_amount := not_le.mp h1
    by_cases h2 : s.amount_paid > 0
    · rw [if_pos h2, if_pos ⟨h2, hlt⟩]
    · rw [if_neg h2, if_neg (by exact fun hc => h2 hc.1)]

/-- Full behavioural description of `DB.saleSave` on an existing sale. -/
lemma saleSave_spec (db : DB) (s old : Sale)
    (hfind : db.findSale s.id = some old) :
    (db.saleSave s).items = db.items ∧
    (db.saleSave s).payments = db.payments ∧
    ∃ s', (db.saleSave s).findSale s.id = some s' ∧
      s'.id = s.id ∧ s'.customer_id = s.customer_id ∧
      s'.tax_amount = s.tax_amount ∧ s'.amount_paid = s.amount_paid ∧
      s'.discount_type = s.discount_type ∧
      s'.discount_value = s.discount_value ∧
      s'.discount_amount = s.discount_amount ∧
      s'.subtotal = db.itemsSubtotal s.id - s.discount_amount ∧
      s'.total_amount = s'.subtotal + s.tax_amount ∧
      s'.balance_due = s'.total_amount - s.amount_paid ∧
      s'.status = s'.compute_status := by
  unfold DB.saleSave
  refine ⟨?_, ?_, ?_⟩
  · rw [recalc_items]
    split
    · split
      · rw [recalc_items]; rfl
      · rfl
    · rfl
  · rw [recalc_payments]
    split
    · split
      · rw [recalc_payments]; rfl
      · rfl
    · rfl
  · refine ⟨{ { s with
        subtotal := db.itemsSubtotal s.id - s.discount_amount,
        total_amount := db.itemsSubtotal s.id - s.discount_amount + s.tax_amount,
        balance_due := db.itemsSubtotal s.id - s.discount_amount + s.tax_amount - s.amount_paid } with
        status := Sale.compute_status { s with
          subtotal := db.itemsSubtotal s.id - s.discount_amount,
          total_amount := db.itemsSubtotal s.id - s.discount_amount + s.tax_amount,
          balance_due := db.itemsSubtotal s.id - s.discount_amount + s.tax_amount - s.amount_paid } },
      ?_, rfl, rfl, rfl, rfl, rfl, rfl, rfl, rfl, rfl, rfl, rfl⟩
    rw [findSale_congr (recalc_sales _ _)]
    split
    · split
      · rw [findSale_congr (recalc_sales _ _)]
        exact findSale_updateSale_self hfind
      · exact findSale_updateSale_self hfind
    · exact findSale_updateSale_self hfind

/-! ### C6: `Lot.adjust_quantity` -/

/-- C6: for every lot and signed delta, the adjustment fails exactly when
`remaining_quantity + delta` would be negative or exceed the lot's original
`quantity`; on success the lot's `remaining_quantity` becomes
`remaining_quantity + delta` (with `quantity` untouched) and no
`StockMovement` row is written. -/
theorem C6_adjust_quantity_spec (db : DB) (lotId : ℕ) (delta : ℤ) (lot : Lot)
    (hfind : db.findLot lotId = some lot) :
    ((∃ e, db.adjustLot lotId delta = .error e) ↔
      ((lot.remaining_quantity : ℤ) + delta < 0 ∨
        (lot.quantity : ℤ) < (lot.remaining_quantity : ℤ) + delta)) ∧
    (∀ db2, db.adjustLot lotId delta = .ok db2 →
      (∃ l2, db2.findLot lotId = some l2 ∧
        (l2.remaining_quantity : ℤ) = (lot.remaining_quantity : ℤ) + delta ∧
        l2.quantity = lot.quantity) ∧
      db2.movements = db.movements) := by
  have hid := find_lot_eq_id hfind
  unfold DB.adjustLot
  rw [hfind]
  unfold Lot.adjust_quantity
  by_cases h1 : (lot.remaining_quantity : ℤ) + delta < 0
  · simp only [h1, if_pos]
    constructor
    · simp [Except.map, h1]
    · intro db2 hdb2
      simp [Except.map] at hdb2
  · by_cases h2 : (lot.remaining_quantity : ℤ) + delta > (lot.quantity : ℤ)
    · simp only [h1, if_neg, if_pos, h2]
      constructor
      · simp [Except.map, h2]
      · intro db2 hdb2
        simp [Except.map, h1, h2] at hdb2
    · simp only [if_neg h1, if_neg h2]
      constructor
      · simp only [Except.map]
        constructor
        · rintro ⟨e, he⟩
          simp at he
        · intro hcon
          rcases hcon with hc | hc
          · exact absurd hc h1
          · exact absurd hc h2
      · intro db2 hdb2
        simp only [Except.map, Except.ok.injEq] at hdb2
        subst hdb2
        refine ⟨⟨_, findLot_updateLot_self hfind hid, ?_, rfl⟩, rfl⟩
        have hnn : 0 ≤ (lot.remaining_quantity : ℤ) + delta := not_lt.mp h1
        simp [Int.toNat_of_nonneg hnn]

/-- Witness for C6 at a concrete input: the lot exists, an adjustment by
`+5` (which would exceed the initial quantity 10) fails, and an adjustment
by `-3` succeeds. -/
theorem C6_adjust_quantity_spec_witness :
    dbC6.findLot 1 = some (dbC6.lots.get ⟨0, by simp [dbC6]⟩) ∧
    (∃ e, dbC6.adjustLot 1 5 = .error e) ∧
    (∀ db2, dbC6.adjustLot 1 (-3) = .ok db2 →
      (∃ l2, db2.findLot 1 = some l2 ∧
        (l2.remaining_quantity : ℤ) = (7 : ℤ) + (-3) ∧ l2.quantity = 10) ∧
      db2.movements = dbC6.movements) := by
  have hfind : dbC6.findLot 1 = some (dbC6.lots.get ⟨0, by simp [dbC6]⟩) := by
    simp [dbC6, DB.findLot]
  refine ⟨hfind, ?_, ?_⟩
  · exact (C6_adjust_quantity_spec dbC6 1 5 _ hfind).1.mpr (by right; decide)
  · exact fun db2 h => (C6_adjust_quantity_spec dbC6 1 (-3) _ hfind).2 db2 h

/-! ### C10: `StockMovement.save` applies itself to the lot -/

lemma adjust_quantity_ok {lot : Lot} {delta : ℤ}
    (h1 : ¬ (lot.remaining_quantity : ℤ) + delta < 0)
    (h2 : ¬ (lot.quantity : ℤ) < (lot.remaining_quantity : ℤ) + delta) :
    lot.adjust_quantity delta =
      .ok { lot with remaining_quantity :=
        ((lot.remaining_quantity : ℤ) + delta).toNat } := by
  unfold Lot.adjust_quantity
  rw [if_neg h1, if_neg (by exact fun h => h2 h)]

lemma adjustLot_eq {db : DB} {lotId : ℕ} {lot : Lot} (delta : ℤ)
    (hfind : db.findLot lotId = some lot) :
    db.adjustLot lotId delta = (lot.adjust_quantity delta).map db.updateLot := by
  unfold DB.adjustLot
  rw [hfind]

lemma adjust_quantity_ok_inv {lot l2 : Lot} {delta : ℤ}
    (h : lot.adjust_quantity delta = .ok l2) :
    l2 = { lot with remaining_quantity :=
        ((lot.remaining_quantity : ℤ) + delta).toNat } ∧
      0 ≤ (lot.remaining_quantity : ℤ) + delta ∧
      (lot.remaining_quantity : ℤ) + delta ≤ (lot.quantity : ℤ) := by
  unfold Lot.adjust_quantity at h
  split at h
  · simp at h
  · split at h
    · simp at h
    · next h1 h2 =>
      simp only [Except.ok.injEq] at h
      exact ⟨h.symm, not_lt.mp h1, not_lt.mp h2⟩

lemma adjustLot_ok_inv {db db2 : DB} {lotId : ℕ} {lot : Lot} {delta : ℤ}
    (hfind : db.findLot lotId = some lot)
    (h : db.adjustLot lotId delta = .ok db2) :
    db2 = db.updateLot { lot with remaining_quantity :=
        ((lot.remaining_quantity : ℤ) + delta).toNat } ∧
      0 ≤ (lot.remaining_quantity : ℤ) + delta ∧
      (lot.remaining_quantity : ℤ) + delta ≤ (lot.quantity : ℤ) := by
  rw [adjustLot_eq delta hfind] at h
  cases hq : lot.adjust_quantity delta with
  | error e => rw [hq] at h; simp [Except.map] at h
  | ok l2 =>
    rw [hq] at h
    simp only [Except.map, Except.ok.injEq] at h
    obtain ⟨hl2, hge, hle⟩ := adjust_quantity_ok_inv hq
    exact ⟨by rw [← h, hl2], hge, hle⟩

lemma adjustLot_ok {db : DB} {lotId : ℕ} {lot : Lot} {delta : ℤ}
    (hfind : db.findLot lotId = some lot)
    (h1 : 0 ≤ (lot.remaining_quantity : ℤ) + delta)
    (h2 : (lot.remaining_quantity : ℤ) + delta ≤ (lot.quantity : ℤ)) :
    db.adjustLot lotId delta = .ok (db.updateLot
      { lot with remaining_quantity :=
        ((lot.remaining_quantity : ℤ) + delta).toNat }) := by
  rw [adjustLot_eq delta hfind, adjust_quantity_ok (not_lt.mpr h1) (not_lt.mpr h2)]
  rfl

lemma stockMovementCreate_false_eq (db : DB) (lotId : ℕ) (t : MovementType)
    (q : ℕ) :
    db.stockMovementCreate false lotId t q = (db.applyToLot lotId t q).map
      (fun d => { d with movements := d.movements ++ [⟨lotId, t, q⟩] }) := rfl

lemma findLot_insert_movements (db : DB) (lotId : ℕ) (ms : List StockMovement) :
    ({ db with movements := ms } : DB).findLot lotId = db.findLot lotId := rfl

/-- C10: saving a new `StockMovement` itself mutates the referenced lot
unless the transient `_skip_lot_update` attribute is set — with the flag
set only the movement row is inserted; an `in` movement adds its quantity
to the lot's `remaining_quantity` and an `out` movement subtracts it (both
through the guarded adjustment); an `adjustment` movement sets
`remaining_quantity` to the movement's quantity absolutely, succeeding even
when that exceeds the lot's original `quantity`; consequently a caller that
first calls `adjust_quantity (-q)` and then creates an `out` movement of
`q` ends with the lot decremented by `2 * q`. -/
theorem C10_stock_movement_save_applies (db : DB) (lotId q : ℕ) (lot : Lot)
    (hfind : db.findLot lotId = some lot) :
    (∀ t, db.stockMovementCreate true lotId t q =
      .ok { db with movements := db.movements ++ [⟨lotId, t, q⟩] }) ∧
    (∀ db2, db.stockMovementCreate false lotId .moveIn q = .ok db2 →
      ∃ l2, db2.findLot lotId = some l2 ∧
        (l2.remaining_quantity : ℤ) = (lot.remaining_quantity : ℤ) + q) ∧
    (∀ db2, db.stockMovementCreate false lotId .moveOut q = .ok db2 →
      ∃ l2, db2.findLot lotId = some l2 ∧
        (l2.remaining_quantity : ℤ) = (lot.remaining_quantity : ℤ) - q) ∧
    (∃ db2, db.stockMovementCreate false lotId .adjustment q = .ok db2 ∧
      db2.findLot lotId = some { lot with remaining_quantity := q } ∧
      db2.movements = db.movements ++ [⟨lotId, .adjustment, q⟩]) ∧
    (∀ dbA db2, db.adjustLot lotId (-(q : ℤ)) = .ok dbA →
      dbA.stockMovementCreate false lotId .moveOut q = .ok db2 →
      ∃ l2, db2.findLot lotId = some l2 ∧
        (l2.remaining_quantity : ℤ) = (lot.remaining_quantity : ℤ) - 2 * q) := by
  have hid := find_lot_eq_id hfind
  refine ⟨fun t => rfl, ?_, ?_, ?_, ?_⟩
  · intro db2 h
    rw [stockMovementCreate_false_eq] at h
    rw [show db.applyToLot lotId .moveIn q = db.adjustLot lotId (q : ℤ) from rfl] at h
    cases ha : db.adjustLot lotId (q : ℤ) with
    | error e => rw [ha] at h; simp [Except.map] at h
    | ok dbA =>
      rw [ha] at h
      simp only [Except.map, Except.ok.injEq] at h
      obtain ⟨hA, hge, _⟩ := adjustLot_ok_inv hfind ha
      refine ⟨{ lot with remaining_quantity :=
        ((lot.remaining_quantity : ℤ) + (q : ℤ)).toNat }, ?_, ?_⟩
      · rw [← h, findLot_insert_movements, hA]
        exact findLot_updateLot_self hfind hid
      · simp only
        rw [Int.toNat_of_nonneg hge]
  · intro db2 h
    rw [stockMovementCreate_false_eq] at h
    rw [show db.applyToLot lotId .moveOut q = db.adjustLot lotId (-(q : ℤ)) from rfl] at h
    cases ha : db.adjustLot lotId (-(q : ℤ)) with
    | error e => rw [ha] at h; simp [Except.map] at h
    | ok dbA =>
      rw [ha] at h
      simp only [Except.map, Except.ok.injEq] at h
      obtain ⟨hA, hge, _⟩ := adjustLot_ok_inv hfind ha
      refine ⟨{ lot with remaining_quantity :=
        ((lot.remaining_quantity : ℤ) + -(q : ℤ)).toNat }, ?_, ?_⟩
      · rw [← h, findLot_insert_movements, hA]
        exact findLot_updateLot_self hfind hid
      · simp only
        rw [Int.toNat_of_nonneg hge]
        ring
  · have happ : db.applyToLot lotId .adjustment q =
        .ok (db.updateLot { lot with remaining_quantity := q }) := by
      unfold DB.applyToLot
      rw [hfind]
    refine ⟨{ db.updateLot { lot with remaining_quantity := q } with
        movements := (db.updateLot { lot with remaining_quantity := q }).movements ++
          [⟨lotId, .adjustment, q⟩] }, ?_, ?_, rfl⟩
    · rw [stockMovementCreate_false_eq, happ]
      rfl
    · rw [findLot_insert_movements]
      exact findLot_updateLot_self hfind hid
  · intro dbA db2 ha h
    obtain ⟨hA, hge, _⟩ := adjustLot_ok_inv hfind ha
    have hfindA : dbA.findLot lotId = some { lot with remaining_quantity :=
        ((lot.remaining_quantity : ℤ) + -(q : ℤ)).toNat } := by
      rw [hA]
      exact findLot_updateLot_self hfind hid
    rw [stockMovementCreate_false_eq] at h
    rw [show dbA.applyToLot lotId .moveOut q = dbA.adjustLot lotId (-(q : ℤ)) from rfl] at h
    cases hb : dbA.adjustLot lotId (-(q : ℤ)) with
    | error e => rw [hb] at h; simp [Except.map] at h
    | ok dbB =>
      rw [hb] at h
      simp only [Except.map, Except.ok.injEq] at h
      obtain ⟨hB, hge2, _⟩ := adjustLot_ok_inv hfindA hb
      refine ⟨{ lot with remaining_quantity :=
        (((((lot.remaining_quantity : ℤ) + -(q : ℤ)).toNat : ℕ) : ℤ) + -(q : ℤ)).toNat }, ?_, ?_⟩
      · rw [← h, findLot_insert_movements, hB]
        exact findLot_updateLot_self hfindA hid
      · simp only
        rw [Int.toNat_of_nonneg hge2, Int.toNat_of_nonneg hge]
        ring

/-- Witness for C10 at a concrete input: saving an `adjustment` movement of
quantity 99 on a lot of initial quantity 10 succeeds and sets
`remaining_quantity` to 99 — far above the lot's original quantity — while
inserting the movement row. -/
theorem C10_stock_movement_save_applies_witness :
    dbC10.findLot 1 = some lotC10 ∧
    (∃ db2, dbC10.stockMovementCreate false 1 .adjustment 99 = .ok db2 ∧
      db2.findLot 1 = some { lotC10 with remaining_quantity := 99 } ∧
      db2.movements = dbC10.movements ++ [⟨1, .adjustment, 99⟩]) :=
  ⟨rfl, (C10_stock_movement_save_applies dbC10 1 99 lotC10 rfl).2.2.2.1⟩

/-! ### C8: discount bounds -/

/-- C8: a percentage discount above 100 is rejected by the in-transaction
discount computation and a negative discount value by field validation (so
a percentage value outside `[0, 100]`, e.g. 110, is rejected); an amount
discount exceeding the raw items subtotal is rejected; and a sale whose
`discount_value` is 0 (with the legacy `discount_amount` column at its
default 0) ends a totals recomputation with its persisted `subtotal` equal
to the raw items subtotal. -/
theorem C8_discount_bounds :
    (∀ v sub : ℚ, 100 < v →
      discountStep "percentage" v sub = .error .percentOver100) ∧
    (∀ (db : DB) (req : SaleRequest), req.discount_value < 0 →
      ValidationError.negativeDiscountValue ∈ baseValidation db req) ∧
    (∀ v sub : ℚ, sub < v →
      discountStep "amount" v sub = .error .discountExceedsSubtotal) ∧
    (∀ (db : DB) (saleId : ℕ) (s : Sale),
      db.findSale saleId = some s → s.discount_value = 0 →
      s.discount_amount = 0 →
      ∃ s', (db.update_totals_from_items saleId).findSale saleId = some s' ∧
        s'.subtotal = db.itemsSubtotal saleId) := by
  refine ⟨?_, ?_, ?_, ?_⟩
  · intro v sub hv
    unfold discountStep
    rw [if_pos rfl, if_pos hv]
    rfl
  · intro db req h
    unfold baseValidation
    rw [if_pos h]
    simp
  · intro v sub hv
    unfold discountStep
    rw [if_neg (by decide), if_pos hv]
    rfl
  · intro db saleId s hfind hv ha
    have hsid : s.id = saleId := by
      have := List.find?_some hfind
      simpa using this
    unfold DB.update_totals_from_items
    rw [hfind]
    have hfind2 : db.findSale s.id = some s := by rw [hsid]; exact hfind
    obtain ⟨_, _, s', hs', _, _, _, _, _, _, _, hsub, _, _, _⟩ :=
      saleSave_spec db _ s hfind2
    refine ⟨s', ?_, ?_⟩
    · rw [← hsid]
      exact hs'
    · rw [hsub]
      simp only [ha, hsid, sub_zero]

/-- Witness for C8 at concrete inputs: a percentage value of 110 over a
subtotal of 50 is rejected, an amount value of 100 over a subtotal of 40 is
rejected, and recomputing the totals of a sale with zero discount leaves
its subtotal equal to the raw items subtotal. -/
theorem C8_discount_bounds_witness :
    discountStep "percentage" 110 50 = .error .percentOver100 ∧
    discountStep "amount" 100 40 = .error .discountExceedsSubtotal ∧
    (∃ s', (dbC8.update_totals_from_items 1).findSale 1 = some s' ∧
      s'.subtotal = dbC8.itemsSubtotal 1) :=
  ⟨C8_discount_bounds.1 110 50 (by norm_num),
   C8_discount_bounds.2.2.1 100 40 (by norm_num),
   C8_discount_bounds.2.2.2 dbC8 1 saleC8 rfl rfl rfl⟩

/-! ### C5: settlement consistency -/

lemma update_totals_eq {db : DB} {saleId : ℕ} {s : Sale}
    (h : db.findSale saleId = some s) :
    db.update_totals_from_items saleId =
      db.saleSave (db.updateTotalsRecord saleId s) := by
  unfold DB.update_totals_from_items DB.updateTotalsRecord
  rw [h]

lemma refresh_payment_eq {db : DB} {saleId : ℕ} {s : Sale}
    (h : db.findSale saleId = some s) :
    db.refresh_payment_summary saleId =
      db.saleSaveNarrowPay (db.refreshPaymentRecord saleId s) := by
  unfold DB.refresh_payment_summary DB.refreshPaymentRecord
  rw [h]

/-- `Sale.compute_status` is the derivation rule over any record whose
`amount_paid` and `total_amount` are known. -/
lemma compute_status_only (s : Sale) (a t : ℚ) (hpa : s.amount_paid = a)
    (hta : s.total_amount = t) :
    s.compute_status = (if a ≥ t then Status.paid
      else if 0 < a ∧ a < t then Status.partialPaid else Status.draft) := by
  rw [compute_status_rule, hpa, hta]

/-- SELECT through the narrowed-write UPDATE: the patched row of the
targeted sale. -/
lemma findSale_payPatch (db : DB) (s old : Sale)
    (hfind : db.findSale s.id = some old) :
    ({ db with sales := db.sales.map (fun x => if x.id = s.id then db.payPatch s x else x) } : DB).findSale s.id = some (db.payPatch s old) := by
  have hid : old.id = s.id := by
    have := List.find?_some hfind
    simpa using this
  have hg : ∀ x : Sale, (if x.id = s.id then db.payPatch s x else x).id = x.id := by
    intro x
    by_cases hx : x.id = s.id
    · rw [if_pos hx]
      rfl
    · rw [if_neg hx]
  have hfm := find_map_keyed Sale.id
    (fun x => if x.id = s.id then db.payPatch s x else x) hg s.id db.sales
  show (db.sales.map (fun x => if x.id = s.id then db.payPatch s x else x)).find?
    (fun x => x.id = s.id) = some (db.payPatch s old)
  rw [hfm]
  rw [show db.sales.find? (fun x => x.id = s.id) = some old from hfind]
  simp only [Option.map_some']
  rw [if_pos hid]

/-- Behavioural description of the narrowed payment-path save on an
existing sale row: only `amount_paid`, `balance_due` and `status` change;
the stored `subtotal` and `total_amount` keep their previous values, while
the persisted `balance_due` and `status` use the total re-derived from the
current items (sale.py:195-199), not the stored `total_amount`. -/
lemma saleSaveNarrowPay_spec (db : DB) (s old : Sale)
    (hfind : db.findSale s.id = some old) :
    (db.saleSaveNarrowPay s).items = db.items ∧
    (db.saleSaveNarrowPay s).payments = db.payments ∧
    ∃ s', (db.saleSaveNarrowPay s).findSale s.id = some s' ∧
      s'.id = old.id ∧ s'.customer_id = old.customer_id ∧
      s'.subtotal = old.subtotal ∧
      s'.tax_amount = old.tax_amount ∧
      s'.discount_type = old.discount_type ∧
      s'.discount_value = old.discount_value ∧
      s'.discount_amount = old.discount_amount ∧
      s'.total_amount = old.total_amount ∧
      s'.amount_paid = s.amount_paid ∧
      s'.balance_due = db.itemsSubtotal s.id - s.discount_amount +
        s.tax_amount - s.amount_paid ∧
      s'.status = (db.saleSaveRecord s).status := by
  simp only [DB.saleSaveNarrowPay]
  refine ⟨?_, ?_, ?_⟩
  · rw [recalc_items]
    split
    · split
      · rw [recalc_items]
      · rfl
    · rfl
  · rw [recalc_payments]
    split
    · split
      · rw [recalc_payments]
      · rfl
    · rfl
  · refine ⟨db.payPatch s old, ?_, rfl, rfl, rfl, rfl, rfl, rfl, rfl, rfl,
      ?_, ?_, ?_⟩
    · rw [findSale_congr (recalc_sales _ s.customer_id)]
      split
      · split
        · rw [findSale_congr (recalc_sales _ _)]
          exact findSale_payPatch db s old hfind
        · exact findSale_payPatch db s old hfind
      · exact findSale_payPatch db s old hfind
    · rfl
    · rfl
    · rfl

/-- Normal form of the narrowed save when the save does not change the
customer reference (the only way it is ever called): the keyed UPDATE
followed by the current customer's credit recomputation. -/
lemma saleSaveNarrowPay_eq {db : DB} {W s : Sale}
    (hfind : db.findSale W.id = some s) (hWc : W.customer_id = s.customer_id) :
    db.saleSaveNarrowPay W =
      ({ db with sales := db.sales.map (fun x => if x.id = W.id then db.payPatch W x else x) } : DB).recalculate_customer_credit s.customer_id := by
  simp only [DB.saleSaveNarrowPay]
  rw [hWc]
  split
  · rename_i prev heq
    rw [hfind] at heq
    have heq2 : s.customer_id = some prev := heq
    rw [if_neg (not_ne_iff.mpr heq2.symm)]
  · rfl

lemma saleSetCustomer_eq {db : DB} {saleId : ℕ} {s : Sale}
    (h : db.findSale saleId = some s) (c : Option ℕ) :
    db.saleSetCustomer saleId c = db.saleSave { s with customer_id := c } := by
  unfold DB.saleSetCustomer
  rw [h]

/-- `saleSave` (the full-row write) establishes the settlement invariant —
including the consistency of the persisted `subtotal` with the current
items — whenever the in-memory record's `amount_paid` equals the payments
total. -/
lemma saleSave_invariant (db : DB) (W s : Sale) (k : ℕ) (hk : W.id = k)
    (hfind : db.findSale k = some s)
    (hpay : W.amount_paid = db.paymentsSum k) :
    ∃ s', (db.saleSave W).findSale k = some s' ∧
      s'.subtotal = (db.saleSave W).itemsSubtotal k - s'.discount_amount ∧
      s'.total_amount = s'.subtotal + s'.tax_amount ∧
      s'.balance_due = s'.total_amount - s'.amount_paid ∧
      s'.amount_paid = (db.saleSave W).paymentsSum k ∧
      s'.status = (if s'.amount_paid ≥ s'.total_amount then Status.paid
        else if 0 < s'.amount_paid ∧ s'.amount_paid < s'.total_amount then
          Status.partialPaid
        else Status.draft) := by
  subst hk
  obtain ⟨hitems, hpays, s', hs', _, _, htax, hpaid, _, _, hdam, hsub, htotal,
    hbal, hstat⟩ := saleSave_spec db W s hfind
  refine ⟨s', hs', ?_, ?_, ?_, ?_, ?_⟩
  · rw [hsub, hdam, itemsSubtotal_congr hitems]
  · rw [htotal, htax]
  · rw [hbal, hpaid]
  · rw [hpaid, paymentsSum_congr hpays, hpay]
  · rw [hstat, compute_status_rule]

/-- `update_totals_from_items` establishes the settlement invariant when
`amount_paid` equals the payments total. -/
lemma update_totals_invariant (db1 : DB) (saleId : ℕ) (s : Sale)
    (hfind : db1.findSale saleId = some s)
    (hpay : s.amount_paid = db1.paymentsSum saleId) :
    ∃ s', (db1.update_totals_from_items saleId).findSale saleId = some s' ∧
      s'.subtotal = (db1.update_totals_from_items saleId).itemsSubtotal saleId -
        s'.discount_amount ∧
      s'.total_amount = s'.subtotal + s'.tax_amount ∧
      s'.balance_due = s'.total_amount - s'.amount_paid ∧
      s'.amount_paid = (db1.update_totals_from_items saleId).paymentsSum saleId ∧
      s'.status = (if s'.amount_paid ≥ s'.total_amount then Status.paid
        else if 0 < s'.amount_paid ∧ s'.amount_paid < s'.total_amount then
          Status.partialPaid
        else Status.draft) := by
  have hsid : s.id = saleId := by
    have := List.find?_some hfind
    simpa using this
  rw [update_totals_eq hfind]
  exact saleSave_invariant db1 (db1.updateTotalsRecord saleId s) s saleId hsid
    hfind hpay

/-- `refresh_payment_summary` re-establishes the settlement equations —
provided the stored `subtotal` and `total_amount` agreed with the current
items beforehand: its save persists only `amount_paid`, `balance_due` and
`status` (sales/models/sale.py:159), so the consistency of the untouched
stored totals is an assumption here, not a result of this operation. -/
lemma refresh_payment_invariant (db1 : DB) (saleId : ℕ) (s : Sale)
    (hfind : db1.findSale saleId = some s)
    (hsub : s.subtotal = db1.itemsSubtotal saleId - s.discount_amount)
    (htot : s.total_amount = s.subtotal + s.tax_amount) :
    ∃ s', (db1.refresh_payment_summary saleId).findSale saleId = some s' ∧
      s'.subtotal = (db1.refresh_payment_summary saleId).itemsSubtotal saleId -
        s'.discount_amount ∧
      s'.total_amount = s'.subtotal + s'.tax_amount ∧
      s'.balance_due = s'.total_amount - s'.amount_paid ∧
      s'.amount_paid = (db1.refresh_payment_summary saleId).paymentsSum saleId ∧
      s'.status = (if s'.amount_paid ≥ s'.total_amount then Status.paid
        else if 0 < s'.amount_paid ∧ s'.amount_paid < s'.total_amount then
          Status.partialPaid
        else Status.draft) := by
  have hsid : s.id = saleId := by
    have := List.find?_some hfind
    simpa using this
  subst hsid
  rw [refresh_payment_eq hfind]
  have hfind2 : db1.findSale (db1.refreshPaymentRecord s.id s).id = some s :=
    hfind
  obtain ⟨hitems, hpays, s', hs', _, _, hsubE, htaxE, _, _, hdamE, htotE,
    hpaidE, hbalE, hstatE⟩ :=
    saleSaveNarrowPay_spec db1 (db1.refreshPaymentRecord s.id s) s hfind2
  have hpaid2 : s'.amount_paid = db1.paymentsSum s.id := hpaidE
  have hbal2 : s'.balance_due = db1.itemsSubtotal s.id - s.discount_amount +
      s.tax_amount - db1.paymentsSum s.id := hbalE
  refine ⟨s', ?_, ?_, ?_, ?_, ?_, ?_⟩
  · exact hs'
  · rw [hsubE, hdamE, itemsSubtotal_congr hitems]
    exact hsub
  · rw [htotE, hsubE, htaxE]
    exact htot
  · rw [hbal2, htotE, hpaid2, htot, hsub]
  · rw [paymentsSum_congr hpays]
    exact hpaid2
  · have hcs : (db1.saleSaveRecord (db1.refreshPaymentRecord s.id s)).status =
        Sale.compute_status
          (db1.saleSaveRecord (db1.refreshPaymentRecord s.id s)) := rfl
    have hrule := compute_status_only
      (db1.saleSaveRecord (db1.refreshPaymentRecord s.id s))
      (db1.paymentsSum s.id)
      (db1.itemsSubtotal s.id - s.discount_amount + s.tax_amount) rfl rfl
    rw [hstatE, hcs, hrule, hpaid2, htotE, htot, hsub]

/-- C5: after a sale-item add or quantity modification, a sale-item
delete, a payment create, a payment delete, or a sale save that reassigns
the customer, the parent sale row satisfies `subtotal` = items total minus
the (legacy) discount, `total_amount = subtotal + tax_amount`,
`balance_due = total_amount - amount_paid`, `amount_paid = Σ` of its
payments' amounts, and the status derivation rule.  Preconditions:
`amount_paid` equalled the payments total before the operation (every
payment operation itself re-establishes it), and — for the payment
operations only, whose save persists just
`amount_paid`/`balance_due`/`status` (sales/models/sale.py:159) — the
stored `subtotal` and `total_amount` already agreed with the items: those
two columns are not rewritten on that path, so their consistency is an
invariant that the item operations establish and the payment operations
preserve, not something a payment save could create.  The conclusion
restores every precondition, so the equations hold after every sequence of
operations on a consistent sale. -/
theorem C5_settlement_consistency (db : DB) (op : SettleOp) (s : Sale)
    (hfind : db.findSale op.saleId = some s)
    (hpay : s.amount_paid = db.paymentsSum op.saleId)
    (htotals : op.viaPaymentRefresh = true →
      s.subtotal = db.itemsSubtotal op.saleId - s.discount_amount ∧
      s.total_amount = s.subtotal + s.tax_amount) :
    ∃ s', (db.applySettleOp op).findSale op.saleId = some s' ∧
      s'.subtotal = (db.applySettleOp op).itemsSubtotal op.saleId -
        s'.discount_amount ∧
      s'.total_amount = s'.subtotal + s'.tax_amount ∧
      s'.balance_due = s'.total_amount - s'.amount_paid ∧
      s'.amount_paid = (db.applySettleOp op).paymentsSum op.saleId ∧
      s'.status = (if s'.amount_paid ≥ s'.total_amount then Status.paid
        else if 0 < s'.amount_paid ∧ s'.amount_paid < s'.total_amount then
          Status.partialPaid
        else Status.draft) := by
  cases op with
  | itemSave it =>
    exact update_totals_invariant _ it.sale_id s hfind hpay
  | itemDelete itemId saleId =>
    exact update_totals_invariant _ saleId s hfind hpay
  | payCreate p =>
    obtain ⟨hsub, htot⟩ := htotals rfl
    exact refresh_payment_invariant _ p.sale_id s hfind hsub htot
  | payDelete paymentId saleId =>
    obtain ⟨hsub, htot⟩ := htotals rfl
    exact refresh_payment_invariant _ saleId s hfind hsub htot
  | setCustomer saleId newCustomer =>
    simp only [SettleOp.saleId] at hfind hpay
    simp only [SettleOp.saleId, DB.applySettleOp]
    rw [saleSetCustomer_eq hfind newCustomer]
    have hsid : s.id = saleId := by
      have := List.find?_some hfind
      simpa using this
    exact saleSave_invariant db { s with customer_id := newCustomer } s saleId
      hsid hfind hpay

/-- Witness for C5 at a concrete input: creating a payment of 40 on a
consistent sale of 100 re-establishes the settlement equations (the sale
ends partially paid with balance 60). -/
theorem C5_settlement_consistency_witness :
    ∃ s', (dbC5.applySettleOp (.payCreate payC5)).findSale 1 = some s' ∧
      s'.subtotal = (dbC5.applySettleOp (.payCreate payC5)).itemsSubtotal 1 -
        s'.discount_amount ∧
      s'.total_amount = s'.subtotal + s'.tax_amount ∧
      s'.balance_due = s'.total_amount - s'.amount_paid ∧
      s'.amount_paid = (dbC5.applySettleOp (.payCreate payC5)).paymentsSum 1 ∧
      s'.status = (if s'.amount_paid ≥ s'.total_amount then Status.paid
        else if 0 < s'.amount_paid ∧ s'.amount_paid < s'.total_amount then
          Status.partialPaid
        else Status.draft) :=
  C5_settlement_consistency dbC5 (.payCreate payC5) saleC5 rfl rfl
    (fun _ => ⟨by norm_num [DB.itemsSubtotal, dbC5, saleC5, SettleOp.saleId,
      payC5], by norm_num [saleC5]⟩)

/-! ### C7: customer credit aggregation -/

lemma creditSum_congr {db db2 : DB} (h : db2.sales = db.sales) (cid : ℕ) :
    db2.creditSum cid = db.creditSum cid := by
  unfold DB.creditSum
  rw [h]

lemma recalc_customers_spec (db : DB) (co : Option ℕ) :
    ∀ c' ∈ (db.recalculate_customer_credit co).customers,
      (co = some c'.id ∧ c'.credit_balance = db.creditSum c'.id) ∨
      (co ≠ some c'.id ∧ c' ∈ db.customers) := by
  intro c' h
  unfold DB.recalculate_customer_credit at h
  cases co with
  | none => exact Or.inr ⟨by simp, h⟩
  | some cid =>
    simp only at h
    cases hfc : db.findCustomer cid with
    | none =>
      rw [hfc] at h
      refine Or.inr ⟨?_, h⟩
      intro hcon
      have hcid : c'.id = cid := by
        injection hcon with hcon2
        exact hcon2.symm
      have := List.find?_eq_none.mp hfc c' h
      simp [hcid] at this
    | some c =>
      rw [hfc] at h
      simp only [List.mem_map] at h
      obtain ⟨x, hx, hgx⟩ := h
      by_cases hxid : x.id = cid
      · rw [if_pos hxid] at hgx
        left
        constructor
        · rw [← hgx]
          show some cid = some x.id
          rw [hxid]
        · rw [← hgx]
          show db.creditSum cid = db.creditSum x.id
          rw [hxid]
      · rw [if_neg hxid] at hgx
        right
        refine ⟨?_, hgx ▸ hx⟩
        intro hcon
        apply hxid
        rw [← hgx] at hcon
        injection hcon with hcon2
        exact hcon2.symm

lemma creditSum_list_replace (V s : Sale) (cid : ℕ) (xs : List Sale)
    (hu : ∀ x ∈ xs, x.id = V.id → x = s)
    (hold : s.customer_id ≠ some cid) (hnew : V.customer_id ≠ some cid) :
    (((xs.map fun x => if x.id = V.id then V else x).filter
      (fun x => x.customer_id = some cid && x.balance_due > 0)).map
      (fun x => x.balance_due)).sum =
    ((xs.filter (fun x => x.customer_id = some cid && x.balance_due > 0)).map
      (fun x => x.balance_due)).sum := by
  induction xs with
  | nil => rfl
  | cons y ys ih =>
    have ihy := ih fun x hx => hu x (List.mem_cons_of_mem y hx)
    by_cases hy : y.id = V.id
    · have hys : y = s := hu y (List.mem_cons_self y ys) hy
      rw [List.map_cons, if_pos hy]
      rw [List.filter_cons, List.filter_cons]
      rw [if_neg (by simp [hnew]), if_neg (by simp [hys, hold])]
      exact ihy
    · rw [List.map_cons, if_neg hy]
      rw [List.filter_cons, List.filter_cons]
      by_cases hp : y.customer_id = some cid ∧ y.balance_due > 0
      · rw [if_pos (by simp [hp.1, hp.2]), if_pos (by simp [hp.1, hp.2])]
        simp only [List.map_cons, List.sum_cons]
        rw [ihy]
      · rw [if_neg (by simpa using hp), if_neg (by simpa using hp)]
        exact ihy

lemma creditSum_updateSale_other {db : DB} {V s : Sale} {cid : ℕ}
    (hfind : db.findSale V.id = some s)
    (hnodup : (db.sales.map Sale.id).Nodup)
    (hold : s.customer_id ≠ some cid) (hnew : V.customer_id ≠ some cid) :
    (db.updateSale V).creditSum cid = db.creditSum cid := by
  have hmem : s ∈ db.sales := List.mem_of_find?_eq_some hfind
  have hsid : s.id = V.id := by
    have := List.find?_some hfind
    simpa using this
  have hu : ∀ x ∈ db.sales, x.id = V.id → x = s := by
    intro x hx hxid
    exact List.inj_on_of_nodup_map hnodup hx hmem (by rw [hxid, hsid])
  exact creditSum_list_replace V s cid db.sales hu hold hnew

/-- The credit-invariant core: a sale-row replacement followed by the two
credit recomputations of `Sale.save` (previous customer when the reference
changed, then current customer) preserves the per-customer credit
invariant. -/
lemma updateSale_recalc_invariant (db : DB) (V s : Sale)
    (hfind : db.findSale V.id = some s)
    (hnodup : (db.sales.map Sale.id).Nodup)
    (hpre : ∀ c ∈ db.customers, c.credit_balance = db.creditSum c.id) :
    ∀ c' ∈ (((match s.customer_id with
        | some prev =>
          if some prev ≠ V.customer_id then
            (db.updateSale V).recalculate_customer_credit (some prev)
          else db.updateSale V
        | none => db.updateSale V) : DB).recalculate_customer_credit
          V.customer_id).customers,
      c'.credit_balance = (((match s.customer_id with
        | some prev =>
          if some prev ≠ V.customer_id then
            (db.updateSale V).recalculate_customer_credit (some prev)
          else db.updateSale V
        | none => db.updateSale V) : DB).recalculate_customer_credit
          V.customer_id).creditSum c'.id := by
  intro c' hc'
  rw [creditSum_congr (recalc_sales _ V.customer_id)]
  rcases recalc_customers_spec _ V.customer_id c' hc' with ⟨_, hcredit⟩ | ⟨hco, hc2⟩
  · exact hcredit
  · cases hprev : s.customer_id with
    | none =>
      rw [hprev] at hc2
      have hc3 : c' ∈ db.customers := hc2
      show c'.credit_balance = (db.updateSale V).creditSum c'.id
      rw [creditSum_updateSale_other hfind hnodup (by rw [hprev]; simp) hco]
      exact hpre c' hc3
    | some prev =>
      rw [hprev] at hc2
      replace hc2 : c' ∈ (((if some prev ≠ V.customer_id then
        (db.updateSale V).recalculate_customer_credit (some prev)
        else db.updateSale V) : DB)).customers := hc2
      show c'.credit_balance = (((if some prev ≠ V.customer_id then
        (db.updateSale V).recalculate_customer_credit (some prev)
        else db.updateSale V) : DB)).creditSum c'.id
      by_cases hif : (some prev ≠ V.customer_id)
      · rw [if_pos hif] at hc2 ⊢
        rw [creditSum_congr (recalc_sales _ (some prev))]
        rcases recalc_customers_spec _ (some prev) c' hc2 with ⟨_, hcr2⟩ | ⟨hco2, hc3⟩
        · exact hcr2
        · have hc4 : c' ∈ db.customers := hc3
          rw [creditSum_updateSale_other hfind hnodup (by rw [hprev]; exact hco2) hco]
          exact hpre c' hc4
      · rw [if_neg hif] at hc2 ⊢
        have hc4 : c' ∈ db.customers := hc2
        have hpeq : some prev = V.customer_id := not_ne_iff.mp hif
        rw [creditSum_updateSale_other hfind hnodup (by rw [hprev, hpeq]; exact hco) hco]
        exact hpre c' hc4

/-- Equation form of `DB.saleSave` once the previous row is known. -/
lemma saleSave_eq {db : DB} {W s : Sale} (hfind : db.findSale W.id = some s) :
    db.saleSave W = (((match s.customer_id with
      | some prev =>
        if some prev ≠ (db.saleSaveRecord W).customer_id then
          (db.updateSale (db.saleSaveRecord W)).recalculate_customer_credit
            (some prev)
        else db.updateSale (db.saleSaveRecord W)
      | none => db.updateSale (db.saleSaveRecord W)) : DB).recalculate_customer_credit
        (db.saleSaveRecord W).customer_id) := by
  unfold DB.saleSave DB.saleSaveRecord
  rw [hfind]
  rfl

/-- `saleSave` preserves the customer-credit invariant. -/
lemma saleSave_credit_invariant (db : DB) (W s : Sale)
    (hfind : db.findSale W.id = some s)
    (hnodup : (db.sales.map Sale.id).Nodup)
    (hpre : ∀ c ∈ db.customers, c.credit_balance = db.creditSum c.id) :
    ∀ c' ∈ (db.saleSave W).customers,
      c'.credit_balance = (db.saleSave W).creditSum c'.id := by
  rw [saleSave_eq hfind]
  exact updateSale_recalc_invariant db (db.saleSaveRecord W) s hfind hnodup hpre

lemma update_totals_credit (db1 : DB) (sid : ℕ)
    (hnodup : (db1.sales.map Sale.id).Nodup)
    (hpre : ∀ c ∈ db1.customers, c.credit_balance = db1.creditSum c.id) :
    ∀ c' ∈ (db1.update_totals_from_items sid).customers,
      c'.credit_balance = (db1.update_totals_from_items sid).creditSum c'.id := by
  cases hf : db1.findSale sid with
  | none =>
    have hid : db1.update_totals_from_items sid = db1 := by
      unfold DB.update_totals_from_items
      rw [hf]
    rw [hid]
    exact hpre
  | some s =>
    have hsid : s.id = sid := by
      have := List.find?_some hf
      simpa using this
    rw [update_totals_eq hf]
    exact saleSave_credit_invariant db1 (db1.updateTotalsRecord sid s) s
      (by show db1.findSale s.id = some s; rw [hsid]; exact hf) hnodup hpre

/-- The narrowed payment-path save preserves the per-customer credit
invariant: the persisted `balance_due` is re-aggregated into the (sole,
unchanged) customer's credit, and every other customer's aggregation is
untouched by the row update. -/
lemma saleSaveNarrowPay_credit_invariant (db : DB) (W s : Sale)
    (hfind : db.findSale W.id = some s)
    (hWc : W.customer_id = s.customer_id)
    (hnodup : (db.sales.map Sale.id).Nodup)
    (hpre : ∀ c ∈ db.customers, c.credit_balance = db.creditSum c.id) :
    ∀ c' ∈ (db.saleSaveNarrowPay W).customers,
      c'.credit_balance = (db.saleSaveNarrowPay W).creditSum c'.id := by
  have hsid : s.id = W.id := by
    have := List.find?_some hfind
    simpa using this
  have hmem : s ∈ db.sales := List.mem_of_find?_eq_some hfind
  have hVid : (db.payPatch W s).id = s.id := rfl
  have hsales2 : db.sales.map (fun x => if x.id = W.id then db.payPatch W x else x) =
      db.sales.map (fun x => if x.id = (db.payPatch W s).id then db.payPatch W s else x) := by
    apply List.map_congr_left
    intro x hx
    by_cases hxk : x.id = W.id
    · have hxs : x = s :=
        List.inj_on_of_nodup_map hnodup hx hmem (by rw [hxk, hsid])
      rw [if_pos hxk, hxs,
        if_pos (show s.id = (db.payPatch W s).id from by rw [hVid])]
    · rw [if_neg hxk, if_neg (show ¬ x.id = (db.payPatch W s).id from by
        rw [hVid]
        intro hc
        exact hxk (hc.trans hsid))]
  have hdb2 : ({ db with sales := db.sales.map (fun x => if x.id = W.id then db.payPatch W x else x) } : DB) = db.updateSale (db.payPatch W s) := by
    unfold DB.updateSale
    rw [hsales2]
  rw [saleSaveNarrowPay_eq hfind hWc, hdb2]
  intro c' hc'
  rw [creditSum_congr (recalc_sales _ s.customer_id)]
  rcases recalc_customers_spec _ s.customer_id c' hc' with ⟨_, hcredit⟩ |
    ⟨hco, hc2⟩
  · exact hcredit
  · have hc3 : c' ∈ db.customers := hc2
    have hfindV : db.findSale (db.payPatch W s).id = some s := by
      show db.findSale s.id = some s
      rw [hsid]
      exact hfind
    rw [creditSum_updateSale_other hfindV hnodup hco
      (show (db.payPatch W s).customer_id ≠ some c'.id from hco)]
    exact hpre c' hc3

lemma refresh_payment_credit (db1 : DB) (sid : ℕ)
    (hnodup : (db1.sales.map Sale.id).Nodup)
    (hpre : ∀ c ∈ db1.customers, c.credit_balance = db1.creditSum c.id) :
    ∀ c' ∈ (db1.refresh_payment_summary sid).customers,
      c'.credit_balance = (db1.refresh_payment_summary sid).creditSum c'.id := by
  cases hf : db1.findSale sid with
  | none =>
    have hid : db1.refresh_payment_summary sid = db1 := by
      unfold DB.refresh_payment_summary
      rw [hf]
    rw [hid]
    exact hpre
  | some s =>
    have hsid : s.id = sid := by
      have := List.find?_some hf
      simpa using this
    rw [refresh_payment_eq hf]
    exact saleSaveNarrowPay_credit_invariant db1
      (db1.refreshPaymentRecord sid s) s
      (by show db1.findSale s.id = some s; rw [hsid]; exact hf) rfl hnodup hpre

/-- C7: each customer's `credit_balance` equals the sum of `balance_due`
over that customer's sales with positive balance, and this invariant is
preserved by every settlement operation — in particular by a sale save that
changes the customer reference, which recomputes both the previous and the
new customer's balance by full re-aggregation. -/
theorem C7_customer_credit_aggregation (db : DB) (op : SettleOp)
    (hnodup : (db.sales.map Sale.id).Nodup)
    (hpre : ∀ c ∈ db.customers, c.credit_balance = db.creditSum c.id) :
    ∀ c' ∈ (db.applySettleOp op).customers,
      c'.credit_balance = (db.applySettleOp op).creditSum c'.id := by
  cases op with
  | itemSave it =>
    exact update_totals_credit _ it.sale_id hnodup hpre
  | itemDelete itemId saleId =>
    exact update_totals_credit _ saleId hnodup hpre
  | payCreate p =>
    exact refresh_payment_credit _ p.sale_id hnodup hpre
  | payDelete paymentId saleId =>
    exact refresh_payment_credit _ saleId hnodup hpre
  | setCustomer saleId newCustomer =>
    simp only [DB.applySettleOp]
    cases hf : db.findSale saleId with
    | none =>
      have hid : db.saleSetCustomer saleId newCustomer = db := by
        unfold DB.saleSetCustomer
        rw [hf]
      rw [hid]
      exact hpre
    | some s =>
      have hsid : s.id = saleId := by
        have := List.find?_some hf
        simpa using this
      rw [saleSetCustomer_eq hf newCustomer]
      exact saleSave_credit_invariant db { s with customer_id := newCustomer } s
        (by show db.findSale s.id = some s; rw [hsid]; exact hf) hnodup hpre

/-- Witness for C7 at a concrete input: moving the sale of customer 1 (with
balance due 60) to customer 2 leaves every customer's credit equal to the
re-aggregated sum — customer 1 drops to 0 and customer 2 rises to 60. -/
theorem C7_customer_credit_aggregation_witness :
    List.Forall
      (fun c' => c'.credit_balance =
        (dbC7.applySettleOp (.setCustomer 1 (some 2))).creditSum c'.id)
      (dbC7.applySettleOp (.setCustomer 1 (some 2))).customers :=
  List.forall_iff_forall_mem.mpr
    (C7_customer_credit_aggregation dbC7 (.setCustomer 1 (some 2)) (by decide)
      (by
        intro c hc
        simp only [dbC7, List.mem_cons, List.not_mem_nil, or_false] at hc
        rcases hc with hc | hc <;> rw [hc] <;>
          norm_num [DB.creditSum, dbC7, saleC7]))

/-! ### C3: the FEFO allocator -/

lemma fefoWalk_fst (lots : List Lot) (need : ℕ) :
    (fefoWalk lots need).map Prod.fst = lots.take (fefoWalk lots need).length := by
  induction lots generalizing need with
  | nil => rfl
  | cons l rest ih =>
    unfold fefoWalk
    by_cases h : need = 0
    · rw [if_pos h]
      rfl
    · rw [if_neg h]
      simp only [List.map_cons, List.length_cons, List.take_succ_cons]
      rw [ih]

lemma fefoWalk_sum_le (lots : List Lot) (need : ℕ) :
    ((fefoWalk lots need).map Prod.snd).sum ≤ need := by
  induction lots generalizing need with
  | nil => simp [fefoWalk]
  | cons l rest ih =>
    unfold fefoWalk
    by_cases h : need = 0
    · rw [if_pos h]
      simp
    · rw [if_neg h]
      simp only [List.map_cons, List.sum_cons]
      have h1 : min l.remaining_quantity need ≤ need := Nat.min_le_right _ _
      have h2 := ih (need - min l.remaining_quantity need)
      omega

lemma fefoWalk_draw (lots : List Lot) (need : ℕ) :
    ∀ i p, (fefoWalk lots need)[i]? = some p →
      p.2 = min p.1.remaining_quantity
        (need - (((fefoWalk lots need).take i).map Prod.snd).sum) := by
  induction lots generalizing need with
  | nil => intro i p hp; simp [fefoWalk] at hp
  | cons l rest ih =>
    intro i p hp
    by_cases hz : need = 0
    · rw [show fefoWalk (l :: rest) need = [] from by
        unfold fefoWalk; rw [if_pos hz]] at hp
      simp at hp
    · have heq : fefoWalk (l :: rest) need =
        (l, min l.remaining_quantity need) ::
          fefoWalk rest (need - min l.remaining_quantity need) := by
        simp only [fefoWalk]
        rw [if_neg hz]
      rw [heq] at hp ⊢
      cases i with
      | zero =>
        simp only [List.getElem?_cons_zero, Option.some.injEq] at hp
        subst hp
        simp
      | succ j =>
        simp only [List.getElem?_cons_succ] at hp
        simp only [List.take_succ_cons, List.map_cons, List.sum_cons]
        have := ih (need - min l.remaining_quantity need) j p hp
        rw [this]
        congr 1
        omega

/-- C3: the allocator considers exactly the active, unexpired,
positive-stock lots of the product; it orders them by ascending expiration
date with ties broken by ascending creation time; and on success the
returned pairs walk a prefix of that ordering, each drawing
`min(lot.remaining_quantity, quantity still needed)`, stopping exactly when
the request is covered. -/
theorem C3_fefo_allocator (db : DB) (productId : ℕ) (today : ℤ) (qty : ℕ) :
    (∀ l, l ∈ db.availableLots productId today ↔
      (l ∈ db.lots ∧ l.product_id = productId ∧ l.is_active = true ∧
        today < l.expiration_date ∧ 0 < l.remaining_quantity)) ∧
    List.Sorted fefoLe (db.availableLots productId today) ∧
    (∀ pairs, db.get_lots_for_sale productId today qty = .ok pairs →
      pairs.map Prod.fst =
        (db.availableLots productId today).take pairs.length ∧
      (∀ i p, pairs[i]? = some p →
        p.2 = min p.1.remaining_quantity
          (qty - ((pairs.take i).map Prod.snd).sum)) ∧
      (pairs.map Prod.snd).sum = qty) := by
  refine ⟨?_, ?_, ?_⟩
  · intro l
    unfold DB.availableLots
    rw [List.Perm.mem_iff (List.perm_insertionSort _ _), List.mem_filter]
    simp [and_assoc]
  · exact List.sorted_insertionSort fefoLe _
  · intro pairs hok
    unfold DB.get_lots_for_sale at hok
    by_cases hrem : qty - ((fefoWalk (db.availableLots productId today) qty).map
        Prod.snd).sum > 0
    · rw [if_pos hrem] at hok
      simp at hok
    · rw [if_neg hrem] at hok
      simp only [Except.ok.injEq] at hok
      subst hok
      refine ⟨fefoWalk_fst _ _, fefoWalk_draw _ _, ?_⟩
      have hle := fefoWalk_sum_le (db.availableLots productId today) qty
      omega

/-- Witness for C3 at the specification's example: lots L1 (expires
2025-01-01, qty 5) and L2 (expires 2025-02-01, qty 5); a request of 7 draws
5 from L1 then 2 from L2 under both creation orders, and the theorem's
conclusions hold at that allocation. -/
theorem C3_fefo_allocator_witness :
    dbC3a.get_lots_for_sale 1 20241215 7 = .ok [(lotC3a1, 5), (lotC3a2, 2)] ∧
    dbC3b.get_lots_for_sale 1 20241215 7 = .ok [(lotC3b1, 5), (lotC3b2, 2)] ∧
    (([(lotC3b1, 5), (lotC3b2, 2)].map Prod.fst) =
      (dbC3b.availableLots 1 20241215).take 2 ∧
      (∀ i p, (([(lotC3b1, 5), (lotC3b2, 2)] : List (Lot × ℕ)))[i]? = some p →
        p.2 = min p.1.remaining_quantity
          (7 - ((([(lotC3b1, 5), (lotC3b2, 2)] : List (Lot × ℕ)).take i).map
            Prod.snd).sum)) ∧
      (([(lotC3b1, 5), (lotC3b2, 2)].map Prod.snd).sum = 7)) := by
  refine ⟨rfl, rfl, ?_⟩
  exact (C3_fefo_allocator dbC3b 1 20241215 7).2.2
    [(lotC3b1, 5), (lotC3b2, 2)] rfl

/-! ### C1: reversal exactness -/

lemma createStep_inv {db dbn : DB} {saleItemId : ℕ} {p : Lot × ℕ}
    (h : db.createSaleItemLotStep saleItemId p = .ok dbn) :
    ∃ l, db.findLot p.1.id = some l ∧ 2 * p.2 ≤ l.remaining_quantity ∧
      dbn = { db with
        lots := db.lots.map (fun x => if x.id = p.1.id then decTwice p.2 l else x),
        movements := db.movements ++ [⟨p.1.id, .moveOut, p.2⟩],
        sale_item_lots := db.sale_item_lots ++ [silOf saleItemId p] } := by
  unfold DB.createSaleItemLotStep at h
  simp only [bind, Except.bind] at h
  cases ha : ({ db with sale_item_lots := db.sale_item_lots ++
      [(⟨saleItemId, p.1.id, p.2, p.1.sale_price⟩ : SaleItemLot)] } : DB).adjustLot
      p.1.id (-(p.2 : ℤ)) with
  | error e => rw [ha] at h; simp at h
  | ok dbA =>
    rw [ha] at h
    simp only at h
    cases hf : db.findLot p.1.id with
    | none =>
      have hf1 : ({ db with sale_item_lots := db.sale_item_lots ++
          [(⟨saleItemId, p.1.id, p.2, p.1.sale_price⟩ : SaleItemLot)] } : DB).findLot
          p.1.id = none := hf
      unfold DB.adjustLot at ha
      rw [hf1] at ha
      simp at ha
    | some l =>
      have hid : l.id = p.1.id := find_lot_eq_id hf
      have hf1 : ({ db with sale_item_lots := db.sale_item_lots ++
          [(⟨saleItemId, p.1.id, p.2, p.1.sale_price⟩ : SaleItemLot)] } : DB).findLot
          p.1.id = some l := hf
      obtain ⟨hA, hge1, _⟩ := adjustLot_ok_inv hf1 ha
      have hfA : dbA.findLot p.1.id = some { l with remaining_quantity :=
          ((l.remaining_quantity : ℤ) + -(p.2 : ℤ)).toNat } := by
        rw [hA]
        exact findLot_updateLot_self hf1 hid
      rw [stockMovementCreate_false_eq] at h
      rw [show dbA.applyToLot p.1.id .moveOut p.2 =
        dbA.adjustLot p.1.id (-(p.2 : ℤ)) from rfl] at h
      cases hb : dbA.adjustLot p.1.id (-(p.2 : ℤ)) with
      | error e => rw [hb] at h; simp [Except.map] at h
      | ok dbB =>
        rw [hb] at h
        simp only [Except.map, Except.ok.injEq] at h
        obtain ⟨hB, hge2, _⟩ := adjustLot_ok_inv hfA hb
        have hge2' : 0 ≤ ((((l.remaining_quantity : ℤ) + -(p.2 : ℤ)).toNat : ℤ)) +
            -(p.2 : ℤ) := hge2
        refine ⟨l, rfl, by omega, ?_⟩
        subst h
        rw [hB, hA]
        simp only [DB.updateLot]
        congr 1
        rw [List.map_map]
        refine List.map_congr_left fun x hx => ?_
        simp only [Function.comp_apply]
        by_cases hx1 : x.id = l.id
        · rw [if_pos hx1]
          dsimp only
          rw [if_pos rfl, if_pos (show x.id = p.1.id by rw [hx1, hid])]
          dsimp only [decTwice]
          congr 1
          omega
        · rw [if_neg hx1]
          try dsimp only
          rw [if_neg hx1, if_neg (show ¬ x.id = p.1.id by rw [← hid]; exact hx1)]

lemma removeStep_ok {db : DB} {sil : SaleItemLot} {l : Lot}
    (hfind : db.findLot sil.lot_id = some l)
    (hbound : l.remaining_quantity + 2 * sil.quantity ≤ l.quantity) :
    db.removeSaleItemLotStep sil = .ok { db with
      lots := db.lots.map
        (fun x => if x.id = sil.lot_id then incTwice sil.quantity l else x),
      movements := db.movements ++ [⟨sil.lot_id, .moveIn, sil.quantity⟩] } := by
  have hid := find_lot_eq_id hfind
  unfold DB.removeSaleItemLotStep
  simp only [bind, Except.bind]
  rw [adjustLot_ok hfind (by omega) (by omega)]
  have hfind1 : (db.updateLot { l with remaining_quantity :=
      ((l.remaining_quantity : ℤ) + (sil.quantity : ℤ)).toNat }).findLot
      sil.lot_id = some { l with remaining_quantity :=
      ((l.remaining_quantity : ℤ) + (sil.quantity : ℤ)).toNat } :=
    findLot_updateLot_self hfind hid
  have hge1 : (0 : ℤ) ≤ (l.remaining_quantity : ℤ) + (sil.quantity : ℤ) := by
    omega
  dsimp only
  rw [stockMovementCreate_false_eq,
    show (db.updateLot { l with remaining_quantity :=
      ((l.remaining_quantity : ℤ) + (sil.quantity : ℤ)).toNat }).applyToLot
      sil.lot_id .moveIn sil.quantity =
    (db.updateLot { l with remaining_quantity :=
      ((l.remaining_quantity : ℤ) + (sil.quantity : ℤ)).toNat }).adjustLot
      sil.lot_id (sil.quantity : ℤ) from rfl]
  rw [adjustLot_ok hfind1 (by dsimp only; omega) (by dsimp only; omega)]
  simp only [Except.map, Except.ok.injEq]
  simp only [DB.updateLot]
  congr 1
  rw [List.map_map]
  refine (List.map_congr_left fun x hx => ?_).symm
  simp only [Function.comp_apply]
  by_cases hx1 : x.id = l.id
  · rw [if_pos hx1]
    dsimp only
    rw [if_pos (show x.id = sil.lot_id by rw [hx1, hid]),
      if_pos rfl]
    dsimp only [incTwice]
    congr 1
    omega
  · rw [if_neg hx1]
    have hx2 : ¬ x.id = sil.lot_id := by rw [← hid]; exact hx1
    rw [if_neg hx2]
    try dsimp only
    rw [if_neg hx1]

lemma ids_preserved (xs : List Lot) (g : Lot → Lot)
    (hg : ∀ x, (g x).id = x.id) : (xs.map g).map Lot.id = xs.map Lot.id := by
  rw [List.map_map]
  exact List.map_congr_left fun x _ => hg x

lemma createLots_inv (saleItemId : ℕ) :
    ∀ (pairs : List (Lot × ℕ)) (db db2 : DB),
    (db.lots.map Lot.id).Nodup →
    (pairs.map fun p => p.1.id).Nodup →
    db.create_sale_item_lots saleItemId pairs = .ok db2 →
    (∀ p ∈ pairs, ∃ l, db.findLot p.1.id = some l ∧
      2 * p.2 ≤ l.remaining_quantity) ∧
    db2.lots = db.lots.map (fun x =>
      match pairs.find? (fun pr => pr.1.id = x.id) with
      | some pr => decTwice pr.2 x
      | none => x) ∧
    db2.movements = db.movements ++
      pairs.map (fun p => ⟨p.1.id, .moveOut, p.2⟩) ∧
    db2.sale_item_lots = db.sale_item_lots ++ pairs.map (silOf saleItemId) ∧
    db2.sales = db.sales ∧ db2.items = db.items ∧
    db2.payments = db.payments ∧ db2.customers = db.customers := by
  intro pairs
  induction pairs with
  | nil =>
    intro db db2 _ _ hfold
    simp only [DB.create_sale_item_lots, List.foldlM_nil] at hfold
    cases hfold
    simp
  | cons p rest ih =>
    intro db db2 hdbids hdist hfold
    simp only [DB.create_sale_item_lots, List.foldlM_cons, bind,
      Except.bind] at hfold
    cases hstep : db.createSaleItemLotStep saleItemId p with
    | error e => rw [hstep] at hfold; simp at hfold
    | ok dbn =>
      rw [hstep] at hfold
      obtain ⟨l, hfl, hble, hdbn⟩ := createStep_inv hstep
      have hlx : l ∈ db.lots := List.mem_of_find?_eq_some hfl
      have hlid : l.id = p.1.id := find_lot_eq_id hfl
      have hupd : ∀ x : Lot,
          ((if x.id = p.1.id then decTwice p.2 l else x) : Lot).id = x.id := by
        intro x
        by_cases hc : x.id = p.1.id
        · rw [if_pos hc]
          show l.id = x.id
          rw [hlid, hc]
        · rw [if_neg hc]
      have hdbnids : (dbn.lots.map Lot.id).Nodup := by
        rw [hdbn]
        show ((db.lots.map _).map Lot.id).Nodup
        rw [ids_preserved _ _ hupd]
        exact hdbids
      have hrestdist : (rest.map fun pr => pr.1.id).Nodup :=
        (List.nodup_cons.mp hdist).2
      have hheadnotin : p.1.id ∉ rest.map fun pr => pr.1.id :=
        (List.nodup_cons.mp hdist).1
      obtain ⟨hconds, hlots, hmoves, hsils, hsales, hitems, hpays, hcusts⟩ :=
        ih dbn db2 hdbnids hrestdist (by
          show dbn.create_sale_item_lots saleItemId rest = .ok db2
          unfold DB.create_sale_item_lots
          exact hfold)
      have hfind_transfer : ∀ k, dbn.findLot k =
          ((db.findLot k).map fun x =>
            if x.id = p.1.id then decTwice p.2 l else x) := by
        intro k
        show dbn.lots.find? _ = _
        rw [hdbn]
        exact find_map_keyed Lot.id _ hupd k db.lots
      refine ⟨?_, ?_, ?_, ?_, hsales.trans (by rw [hdbn]),
        hitems.trans (by rw [hdbn]), hpays.trans (by rw [hdbn]),
        hcusts.trans (by rw [hdbn])⟩
      · intro pr hpr
        rcases List.mem_cons.mp hpr with hpr | hpr
        · subst hpr
          exact ⟨l, hfl, hble⟩
        · obtain ⟨l', hfl', hble'⟩ := hconds pr hpr
          rw [hfind_transfer] at hfl'
          cases hfo : db.findLot pr.1.id with
          | none => rw [hfo] at hfl'; simp at hfl'
          | some l0 =>
            rw [hfo] at hfl'
            simp only [Option.map_some', Option.some.injEq] at hfl'
            have hl0id : l0.id = pr.1.id := find_lot_eq_id hfo
            have hne : ¬ l0.id = p.1.id := by
              rw [hl0id]
              intro hcon
              exact hheadnotin (hcon ▸ List.mem_map_of_mem _ hpr)
            rw [if_neg hne] at hfl'
            exact ⟨l0, rfl, hfl' ▸ hble'⟩
      · rw [hlots, hdbn]
        show ((db.lots.map _).map _) = _
        rw [List.map_map]
        refine List.map_congr_left fun x hx => ?_
        simp only [Function.comp_apply]
        by_cases hc : x.id = p.1.id
        · have hlx2 : l = x :=
            List.inj_on_of_nodup_map hdbids hlx hx (by rw [hlid, hc])
          rw [if_pos hc]
          try dsimp only
          have hr : rest.find? (fun pr => pr.1.id = (decTwice p.2 l).id) =
              none := by
            rw [List.find?_eq_none]
            intro pr hpr
            simp only [decide_eq_true_eq]
            show ¬ pr.1.id = l.id
            rw [hlid]
            intro hcon
            exact hheadnotin (hcon ▸ List.mem_map_of_mem _ hpr)
          rw [hr]
          rw [List.find?_cons_of_pos _ (by
            simp only [decide_eq_true_eq]
            exact hc.symm)]
          rw [hlx2]
        · rw [if_neg hc]
          try dsimp only
          rw [List.find?_cons_of_neg _ (by
            simp only [decide_eq_true_eq]
            intro hcon
            exact hc (by rw [← hcon]))]
      · rw [hmoves, hdbn]
        show (db.movements ++ _) ++ _ = _
        rw [List.append_assoc]
        rfl
      · rw [hsils, hdbn]
        show (db.sale_item_lots ++ _) ++ _ = _
        rw [List.append_assoc]
        rfl

lemma removeLots_ok :
    ∀ (sils : List SaleItemLot) (db : DB),
    (db.lots.map Lot.id).Nodup →
    (sils.map SaleItemLot.lot_id).Nodup →
    (∀ sil ∈ sils, ∃ l, db.findLot sil.lot_id = some l ∧
      l.remaining_quantity + 2 * sil.quantity ≤ l.quantity) →
    ∃ db2, sils.foldlM (fun d sil => d.removeSaleItemLotStep sil) db = .ok db2 ∧
      db2.lots = db.lots.map (fun x =>
        match sils.find? (fun sil => sil.lot_id = x.id) with
        | some sil => incTwice sil.quantity x
        | none => x) ∧
      db2.movements = db.movements ++
        sils.map (fun sil => ⟨sil.lot_id, .moveIn, sil.quantity⟩) ∧
      db2.sale_item_lots = db.sale_item_lots ∧
      db2.sales = db.sales ∧ db2.items = db.items ∧
      db2.payments = db.payments ∧ db2.customers = db.customers := by
  intro sils
  induction sils with
  | nil =>
    intro db _ _ _
    refine ⟨db, rfl, ?_, by simp, rfl, rfl, rfl, rfl, rfl⟩
    simp
  | cons sil rest ih =>
    intro db hdbids hdist hconds
    obtain ⟨l, hfindl, hbound⟩ := hconds sil (List.mem_cons_self sil rest)
    have hlid : l.id = sil.lot_id := find_lot_eq_id hfindl
    have hlx : l ∈ db.lots := List.mem_of_find?_eq_some hfindl
    have hheadnotin : sil.lot_id ∉ rest.map SaleItemLot.lot_id :=
      (List.nodup_cons.mp hdist).1
    have hrestdist : (rest.map SaleItemLot.lot_id).Nodup :=
      (List.nodup_cons.mp hdist).2
    have hupd : ∀ x : Lot,
        ((if x.id = sil.lot_id then incTwice sil.quantity l else x) : Lot).id =
          x.id := by
      intro x
      by_cases hc : x.id = sil.lot_id
      · rw [if_pos hc]
        show l.id = x.id
        rw [hlid, hc]
      · rw [if_neg hc]
    set dbn : DB := { db with
      lots := db.lots.map
        (fun x => if x.id = sil.lot_id then incTwice sil.quantity l else x),
      movements := db.movements ++ [⟨sil.lot_id, .moveIn, sil.quantity⟩] }
      with hdbn
    have hdbnids : (dbn.lots.map Lot.id).Nodup := by
      show ((db.lots.map _).map Lot.id).Nodup
      rw [ids_preserved _ _ hupd]
      exact hdbids
    have hfind_transfer : ∀ k, dbn.findLot k =
        ((db.findLot k).map fun x =>
          if x.id = sil.lot_id then incTwice sil.quantity l else x) := by
      intro k
      show (db.lots.map _).find? _ = _
      exact find_map_keyed Lot.id _ hupd k db.lots
    have hrestconds : ∀ sil' ∈ rest, ∃ l', dbn.findLot sil'.lot_id = some l' ∧
        l'.remaining_quantity + 2 * sil'.quantity ≤ l'.quantity := by
      intro sil' hmem
      obtain ⟨l', hf', hb'⟩ := hconds sil' (List.mem_cons_of_mem sil hmem)
      refine ⟨l', ?_, hb'⟩
      rw [hfind_transfer, hf']
      simp only [Option.map_some']
      rw [if_neg (by
        rw [find_lot_eq_id hf']
        intro hcon
        exact hheadnotin (hcon ▸ List.mem_map_of_mem _ hmem))]
    obtain ⟨db2, hfold, hlots, hmoves, hsils, hsales, hitems, hpays, hcusts⟩ :=
      ih dbn hdbnids hrestdist hrestconds
    refine ⟨db2, ?_, ?_, ?_, hsils.trans rfl, hsales.trans rfl,
      hitems.trans rfl, hpays.trans rfl, hcusts.trans rfl⟩
    · rw [List.foldlM_cons, removeStep_ok hfindl hbound]
      simp only [bind, Except.bind]
      exact hfold
    · rw [hlots]
      show ((db.lots.map _).map _) = _
      rw [List.map_map]
      refine List.map_congr_left fun x hx => ?_
      simp only [Function.comp_apply]
      by_cases hc : x.id = sil.lot_id
      · have hlx2 : l = x :=
          List.inj_on_of_nodup_map hdbids hlx hx (by rw [hlid, hc])
        rw [if_pos hc]
        try dsimp only
        have hr : rest.find? (fun sil' => sil'.lot_id =
            (incTwice sil.quantity l).id) = none := by
          rw [List.find?_eq_none]
          intro sil' hmem
          simp only [decide_eq_true_eq]
          show ¬ sil'.lot_id = l.id
          rw [hlid]
          intro hcon
          exact hheadnotin (hcon ▸ List.mem_map_of_mem _ hmem)
        rw [hr]
        rw [List.find?_cons_of_pos _ (by
          simp only [decide_eq_true_eq]
          exact hc.symm)]
        rw [hlx2]
      · rw [if_neg hc]
        try dsimp only
        rw [List.find?_cons_of_neg _ (by
          simp only [decide_eq_true_eq]
          intro hcon
          exact hc (by rw [← hcon]))]
    · rw [hmoves]
      show (db.movements ++ _) ++ _ = _
      rw [List.append_assoc]
      rfl

lemma decMatch_id_preserved (pairs : List (Lot × ℕ)) : ∀ x : Lot,
    ((match pairs.find? (fun pr => pr.1.id = x.id) with
      | some pr => decTwice pr.2 x
      | none => x) : Lot).id = x.id := by
  intro x
  cases pairs.find? (fun pr => pr.1.id = x.id) with
  | none => rfl
  | some pr => rfl

lemma avail_ids_nodup (db : DB) (productId : ℕ) (today : ℤ)
    (hids : (db.lots.map Lot.id).Nodup) :
    ((db.availableLots productId today).map Lot.id).Nodup := by
  unfold DB.availableLots
  have hperm := List.perm_insertionSort fefoLe (db.lots.filter fun l =>
    l.product_id = productId && l.is_active && today < l.expiration_date &&
      0 < l.remaining_quantity)
  refine (List.Perm.nodup_iff (hperm.map Lot.id)).mpr ?_
  exact ((List.filter_sublist _).map Lot.id).nodup hids

/-- C1: if creating a sale line succeeds — it draws quantity `p.2` from
each allocated lot `p.1` — then deleting that line succeeds, restores every
consumed lot's `remaining_quantity` (indeed the whole lot table) to its
pre-sale state, removes the line's `SaleItemLot` rows, and leaves the stock
movement log extended by exactly one `out` movement of the drawn quantity
followed by one matching `in` movement per lot touched, the touched lots
being pairwise distinct (net stock change zero per lot). -/
theorem C1_reversal_exactness (db : DB) (saleItemId productId : ℕ)
    (today : ℤ) (qty : ℕ) (db2 : DB)
    (hids : (db.lots.map Lot.id).Nodup)
    (hwf : ∀ l ∈ db.lots, l.remaining_quantity ≤ l.quantity)
    (hfresh : ∀ sil ∈ db.sale_item_lots, sil.sale_item_id ≠ saleItemId)
    (hok : db.createSaleItemStock saleItemId productId today qty = .ok db2) :
    ∃ pairs db3,
      db.get_lots_for_sale productId today qty = .ok pairs ∧
      db2.deleteSaleItemStock saleItemId = .ok db3 ∧
      db3.lots = db.lots ∧
      db3.sale_item_lots = db.sale_item_lots ∧
      db3.movements = db.movements ++
        pairs.map (fun p => ⟨p.1.id, .moveOut, p.2⟩) ++
        pairs.map (fun p => ⟨p.1.id, .moveIn, p.2⟩) ∧
      (pairs.map fun p => p.1.id).Nodup := by
  unfold DB.createSaleItemStock at hok
  cases hg : db.get_lots_for_sale productId today qty with
  | error e => rw [hg] at hok; simp at hok
  | ok pairs =>
    rw [hg] at hok
    -- the allocated lots are distinct members of the candidate list
    have hwalk : pairs = fefoWalk (db.availableLots productId today) qty := by
      simp only [DB.get_lots_for_sale] at hg
      split at hg
      · simp at hg
      · simp only [Except.ok.injEq] at hg
        rw [← hg]
    have hfst : pairs.map Prod.fst =
        (db.availableLots productId today).take pairs.length := by
      rw [hwalk]
      exact fefoWalk_fst _ _
    have hpairsdist : (pairs.map fun p => p.1.id).Nodup := by
      have : (pairs.map fun p => p.1.id) =
          ((db.availableLots productId today).take pairs.length).map Lot.id := by
        rw [← hfst, List.map_map]
        rfl
      rw [this]
      exact ((List.take_sublist _ _).map Lot.id).nodup
        (avail_ids_nodup db productId today hids)
    obtain ⟨hconds, hlots2, hmoves2, hsils2, hsales2, hitems2, hpays2, hcusts2⟩ :=
      createLots_inv saleItemId pairs db db2 hids hpairsdist hok
    -- each pair's lot is the database row with that id
    have hconds2 : ∀ p ∈ pairs, ∃ l, db.findLot p.1.id = some l ∧
        2 * p.2 ≤ l.remaining_quantity ∧ l ∈ db.lots ∧ l.id = p.1.id := by
      intro p hp
      obtain ⟨l, hfl, hble⟩ := hconds p hp
      exact ⟨l, hfl, hble, List.mem_of_find?_eq_some hfl, find_lot_eq_id hfl⟩
    -- the SaleItemLot rows of the new line
    have hfilter : db2.sale_item_lots.filter
        (fun sil => sil.sale_item_id = saleItemId) = pairs.map (silOf saleItemId) := by
      rw [hsils2, List.filter_append]
      rw [List.filter_eq_nil_iff.mpr (by
        intro sil hmem
        simp only [decide_eq_true_eq]
        exact hfresh sil hmem)]
      rw [List.nil_append]
      rw [List.filter_eq_self.mpr (by
        intro sil hmem
        obtain ⟨p, _, hp⟩ := List.mem_map.mp hmem
        simp only [decide_eq_true_eq]
        rw [← hp]
        rfl)]
    have hdb2ids : (db2.lots.map Lot.id).Nodup := by
      rw [hlots2]
      rw [ids_preserved _ _ (decMatch_id_preserved pairs)]
      exact hids
    have hfind_transfer2 : ∀ k, db2.findLot k =
        ((db.findLot k).map fun x =>
          match pairs.find? (fun pr => pr.1.id = x.id) with
          | some pr => decTwice pr.2 x
          | none => x) := by
      intro k
      show db2.lots.find? _ = _
      rw [hlots2]
      exact find_map_keyed Lot.id _ (decMatch_id_preserved pairs) k db.lots
    -- find? over the pairs list returns the pair of a member lot id
    have hfindpair : ∀ p ∈ pairs,
        pairs.find? (fun pr => pr.1.id = p.1.id) = some p := by
      intro p hp
      cases hfp : pairs.find? (fun pr => pr.1.id = p.1.id) with
      | none =>
        exfalso
        have := List.find?_eq_none.mp hfp p hp
        simp at this
      | some qr =>
        have hqr : qr.1.id = p.1.id := by
          have := List.find?_some hfp
          simpa using this
        have hqm : qr ∈ pairs := List.mem_of_find?_eq_some hfp
        have : qr.1.id = p.1.id → qr = p := fun hh => by
          have h1 : (fun pr : Lot × ℕ => pr.1.id) qr =
              (fun pr : Lot × ℕ => pr.1.id) p := hh
          exact List.inj_on_of_nodup_map hpairsdist hqm hp h1
        rw [this hqr]
    -- conditions for the reversal fold
    have hremconds : ∀ sil ∈ pairs.map (silOf saleItemId),
        ∃ l, db2.findLot sil.lot_id = some l ∧
          l.remaining_quantity + 2 * sil.quantity ≤ l.quantity := by
      intro sil hmem
      obtain ⟨p, hp, hps⟩ := List.mem_map.mp hmem
      obtain ⟨l, hfl, hble, hlmem, hlid⟩ := hconds2 p hp
      subst hps
      refine ⟨decTwice p.2 l, ?_, ?_⟩
      · show db2.findLot p.1.id = _
        rw [hfind_transfer2, hfl]
        simp only [Option.map_some']
        rw [show pairs.find? (fun pr => pr.1.id = l.id) =
          pairs.find? (fun pr => pr.1.id = p.1.id) from by rw [hlid]]
        rw [hfindpair p hp]
      · have := hwf l hlmem
        show l.remaining_quantity - 2 * p.2 + 2 * p.2 ≤ l.quantity
        omega
    have hsilsdist : ((pairs.map (silOf saleItemId)).map
        SaleItemLot.lot_id).Nodup := by
      rw [List.map_map]
      exact hpairsdist
    obtain ⟨db3p, hfold3, hlots3, hmoves3, hsils3, hsales3, hitems3, hpays3,
      hcusts3⟩ := removeLots_ok (pairs.map (silOf saleItemId)) db2 hdb2ids
        hsilsdist hremconds
    refine ⟨pairs, { db3p with sale_item_lots := db3p.sale_item_lots.filter fun sil => sil.sale_item_id ≠ saleItemId }, rfl, ?_, ?_, ?_, ?_, hpairsdist⟩
    · show db2.remove_sale_item_lots saleItemId = _
      unfold DB.remove_sale_item_lots
      rw [hfilter]
      simp only [bind, Except.bind]
      rw [hfold3]
    · -- the lot table is restored
      show db3p.lots = db.lots
      rw [hlots3, hlots2]
      rw [List.map_map]
      have hidfun : ∀ x ∈ db.lots, (fun x => match (pairs.map (silOf saleItemId)).find?
          (fun sil => sil.lot_id = x.id) with
          | some sil => incTwice sil.quantity x
          | none => x) ((fun x => match pairs.find? (fun pr => pr.1.id = x.id) with
          | some pr => decTwice pr.2 x
          | none => x) x) = x := by
        intro x hx
        cases hfp : pairs.find? (fun pr => pr.1.id = x.id) with
        | none =>
          simp only [hfp]
          have : (pairs.map (silOf saleItemId)).find?
              (fun sil => sil.lot_id = x.id) = none := by
            rw [List.find?_map]
            rw [show ((fun sil : SaleItemLot => decide (sil.lot_id = x.id)) ∘
              silOf saleItemId) = (fun pr : Lot × ℕ =>
                decide (pr.1.id = x.id)) from rfl]
            rw [hfp]
            rfl
          simp only [this]
        | some pr =>
          simp only [hfp]
          have hprm : pr ∈ pairs := List.mem_of_find?_eq_some hfp
          have hprid : pr.1.id = x.id := by
            have := List.find?_some hfp
            simpa using this
          obtain ⟨l, hfl, hble, hlmem, hlid⟩ := hconds2 pr hprm
          have hlx : l = x :=
            List.inj_on_of_nodup_map hids hlmem hx (by rw [hlid, hprid])
          have hfsil : (pairs.map (silOf saleItemId)).find?
              (fun sil => sil.lot_id = (decTwice pr.2 x).id) =
              some (silOf saleItemId pr) := by
            rw [List.find?_map]
            rw [show ((fun sil : SaleItemLot =>
              decide (sil.lot_id = (decTwice pr.2 x).id)) ∘ silOf saleItemId) =
              (fun qr : Lot × ℕ => decide (qr.1.id = x.id)) from rfl]
            rw [hfp]
            rfl
          rw [hfsil]
          show { x with remaining_quantity :=
            x.remaining_quantity - 2 * pr.2 + 2 * pr.2 } = x
          have h2q : 2 * pr.2 ≤ x.remaining_quantity := by rw [← hlx]; exact hble
          conv_rhs => rw [show x = { x with remaining_quantity :=
            x.remaining_quantity } from rfl]
          congr 1
          omega
      calc db.lots.map _ = db.lots.map id := List.map_congr_left hidfun
        _ = db.lots := List.map_id db.lots
    · -- the SaleItemLot rows are restored
      show db3p.sale_item_lots.filter _ = db.sale_item_lots
      rw [hsils3, hsils2, List.filter_append]
      rw [List.filter_eq_self.mpr (by
        intro sil hmem
        simp only [decide_eq_true_eq]
        exact hfresh sil hmem)]
      rw [List.filter_eq_nil_iff.mpr (by
        intro sil hmem
        obtain ⟨p, _, hp⟩ := List.mem_map.mp hmem
        simp only [decide_eq_true_eq, not_not]
        rw [← hp]
        rfl)]
      rw [List.append_nil]
    · -- the movement log gains one out and one matching in per lot
      show db3p.movements = _
      rw [hmoves3, hmoves2, List.map_map]
      rfl

/-- Concrete C1 run: selling 3 units from a lot of 10 and then deleting the
line restores the lot table and the `SaleItemLot` rows exactly, leaving one
`out` and one matching `in` movement. -/
theorem C1_reversal_exactness_witness :
    (dbC1.createSaleItemStock 7 1 20000 3 = .ok db2C1) ∧
    ∃ pairs db3,
      dbC1.get_lots_for_sale 1 20000 3 = .ok pairs ∧
      db2C1.deleteSaleItemStock 7 = .ok db3 ∧
      db3.lots = dbC1.lots ∧
      db3.sale_item_lots = dbC1.sale_item_lots ∧
      db3.movements = dbC1.movements ++
        pairs.map (fun p => ⟨p.1.id, .moveOut, p.2⟩) ++
        pairs.map (fun p => ⟨p.1.id, .moveIn, p.2⟩) ∧
      (pairs.map fun p => p.1.id).Nodup :=
  ⟨rfl, C1_reversal_exactness dbC1 7 1 20000 3 db2C1 (by decide) (by decide)
    (by decide) rfl⟩

/-- C2: the claim's no-partial-mutation guarantee is violated by
`update_sale`.  On a request whose second line exceeds the product's
sellable stock (5 requested, 3 available) the validation phase ends with
the `insufficient_stock` error and the view answers 400 — yet the
pre-transaction restore loop for the first line (sales/api_views.py:
762-767, run before `transaction.atomic()`) has already persisted lot 1's
`remaining_quantity` going from 8 to 10: a Lot is modified by the failed
operation. -/
theorem C2_failed_update_mutates_lot :
    (∃ vals, update_sale_validation dbC2 1 reqC2 20000 =
      .done [ValidationError.insufficientStock 2 5 3] vals db2C2) ∧
    dbC2.findLot 1 = some lotC2a ∧
    lotC2a.remaining_quantity = 8 ∧
    db2C2.findLot 1 = some { lotC2a with remaining_quantity := 10 } :=
  ⟨⟨_, rfl⟩, rfl, rfl, rfl⟩

/-! ### C9: every valid `create_sale` request crashes -/

lemma roundHalfEvenZ_nonneg (x : ℚ) (h : 0 ≤ x) : 0 ≤ roundHalfEvenZ x := by
  have hf : 0 ≤ ⌊x⌋ := Int.floor_nonneg.mpr h
  simp only [roundHalfEvenZ]
  split
  · exact hf
  · split
    · omega
    · split
      · exact hf
      · omega

lemma decRound_nonneg (p : ℕ) (x : ℚ) (h : 0 ≤ x) : 0 ≤ decRound p x := by
  simp only [decRound]
  refine mul_nonneg ?_ (by positivity)
  exact_mod_cast roundHalfEvenZ_nonneg _ (mul_nonneg h (by positivity))

lemma average_price_nonneg (t : ℚ) (q : ℕ) (h : 0 ≤ t) :
    0 ≤ average_price t q := by
  unfold average_price
  exact decRound_nonneg _ _ (div_nonneg h (Nat.cast_nonneg q))

lemma walkTotalPrice_nonneg (pairs : List (Lot × ℕ))
    (h : ∀ p ∈ pairs, 0 ≤ p.1.sale_price) : 0 ≤ walkTotalPrice pairs := by
  unfold walkTotalPrice
  refine List.sum_nonneg ?_
  intro x hx
  obtain ⟨p, hp, hpx⟩ := List.mem_map.mp hx
  rw [← hpx]
  exact mul_nonneg (h p hp) (Nat.cast_nonneg _)

lemma viewWalk_mem_fst : ∀ (lots : List Lot) (r : ℤ) (p : Lot × ℕ),
    p ∈ viewWalk lots r → p.1 ∈ lots := by
  intro lots
  induction lots with
  | nil => intro r p hp; simp [viewWalk] at hp
  | cons lot rest ih =>
    intro r p hp
    simp only [viewWalk] at hp
    split at hp
    · simp at hp
    · rcases List.mem_cons.mp hp with h1 | h2
      · rw [h1]
        exact List.mem_cons_self _ _
      · exact List.mem_cons_of_mem _ (ih _ _ h2)

lemma availableLots_mem {db : DB} {pid : ℕ} {today : ℤ} {l : Lot}
    (h : l ∈ db.availableLots pid today) : l ∈ db.lots := by
  unfold DB.availableLots at h
  have := (List.perm_insertionSort fefoLe _).mem_iff.mp h
  exact List.mem_of_mem_filter this

lemma createItemStep_nonneg (db : DB) (today : ℤ)
    (hlots : ∀ l ∈ db.lots, 0 ≤ l.sale_price)
    (acc : List ValidationError × List ValidatedItem) (it : ItemRequest)
    (hacc : ∀ v ∈ acc.2, 0 ≤ v.line_total) :
    ∀ v ∈ (createItemStep db today acc it).2, 0 ≤ v.line_total := by
  intro v hv
  simp only [createItemStep] at hv
  split at hv
  · exact hacc v hv
  · split at hv
    · exact hacc v hv
    · split at hv
      · exact hacc v hv
      · simp only [List.mem_append, List.mem_singleton] at hv
        rcases hv with h1 | h2
        · exact hacc v h1
        · rw [h2]
          refine decRound_nonneg _ _ (mul_nonneg ?_ (Nat.cast_nonneg _))
          refine average_price_nonneg _ _ (walkTotalPrice_nonneg _ ?_)
          intro p hp
          exact hlots p.1 (availableLots_mem (viewWalk_mem_fst _ _ _ hp))

lemma createItemsFold_nonneg (db : DB) (today : ℤ)
    (hlots : ∀ l ∈ db.lots, 0 ≤ l.sale_price) :
    ∀ (reqs : List ItemRequest)
      (acc : List ValidationError × List ValidatedItem),
      (∀ v ∈ acc.2, 0 ≤ v.line_total) →
      ∀ v ∈ (reqs.foldl (createItemStep db today) acc).2, 0 ≤ v.line_total := by
  intro reqs
  induction reqs with
  | nil => intro acc hacc; simpa using hacc
  | cons it rest ih =>
    intro acc hacc
    simp only [List.foldl_cons]
    exact ih _ (createItemStep_nonneg db today hlots acc it hacc)

lemma discountStep_amount_zero (s : ℚ) (h : 0 ≤ s) :
    discountStep "amount" 0 s = .ok s := by
  unfold discountStep
  rw [if_neg (by decide)]
  rw [if_neg (not_lt.mpr h)]
  simp only [bind, Except.bind]
  rw [sub_zero]
  rw [if_neg (not_lt.mpr h)]

/-- C9: refuted — `create_sale` cannot return a finalized Sale for ANY
valid request.  After validation fully succeeds, the view evaluates
`Sale.objects.create(..., status=Sale.Status.PENDING, ...)`
(sales/api_views.py:556); `PENDING` is not a member of `Sale.Status`
(whose members are DRAFT/PAID/PARTIAL, sales/models/sale.py:19-22), so the
attribute lookup raises `AttributeError`, the generic `except Exception`
handler catches it, and the view answers 500.  Here a fully valid request
— existing customer, in-stock product, positive cash payment — produces
`serverError` with the database unchanged, not a finalized sale. -/
theorem C9_valid_create_sale_returns_500 :
    baseValidation dbC9 reqC9 = [] ∧
    (createItemsValidation dbC9 20000 reqC9.items).1 = [] ∧
    (paymentsValidation reqC9.payments).1 = [] ∧
    Status.fromName "PENDING" = none ∧
    create_sale dbC9 reqC9 20000 = (.serverError, dbC9) := by
  refine ⟨rfl, rfl, rfl, rfl, ?_⟩
  have hlots : ∀ l ∈ dbC9.lots, 0 ≤ l.sale_price := by
    intro l hl
    simp only [dbC9, List.mem_singleton] at hl
    rw [hl]
    norm_num [lotC9]
  have hsub : (0:ℚ) ≤ ((createItemsValidation dbC9 20000 reqC9.items).2.map
      fun v => v.line_total).sum := by
    refine List.sum_nonneg ?_
    intro x hx
    obtain ⟨v, hv, hvx⟩ := List.mem_map.mp hx
    rw [← hvx]
    exact createItemsFold_nonneg dbC9 20000 hlots reqC9.items ([], [])
      (by simp) v hv
  simp only [create_sale]
  rw [show baseValidation dbC9 reqC9 ++
    (createItemsValidation dbC9 20000 reqC9.items).1 ++
    (paymentsValidation reqC9.payments).1 = ([] : List ValidationError)
    from rfl]
  rw [if_neg (by simp)]
  rw [show reqC9.discount_type = "amount" from rfl]
  rw [show reqC9.discount_value = (0:ℚ) from rfl]
  rw [discountStep_amount_zero _ hsub]
  rfl

/-! ### C4: the decimal model of the weighted line price -/

lemma rhe_sub_le (z : ℚ) : |(roundHalfEvenZ z : ℚ) - z| ≤ 1 / 2 := by
  have h0 : (⌊z⌋ : ℚ) ≤ z := Int.floor_le z
  have h1 : z < (⌊z⌋ : ℚ) + 1 := Int.lt_floor_add_one z
  simp only [roundHalfEvenZ]
  split
  · rw [abs_le]
    constructor <;> linarith
  · split
    · push_cast
      rw [abs_le]
      constructor <;> linarith
    · split
      · rw [abs_le]
        constructor <;> linarith
      · push_cast
        rw [abs_le]
        constructor <;> linarith

lemma rhe_eq_of_near (z : ℚ) (k : ℤ) (h : |z - (k : ℚ)| < 1 / 2) :
    roundHalfEvenZ z = k := by
  have h1 := rhe_sub_le z
  have h2 : |(roundHalfEvenZ z : ℚ) - (k : ℚ)| < 1 := by
    calc |(roundHalfEvenZ z : ℚ) - (k : ℚ)|
        ≤ |(roundHalfEvenZ z : ℚ) - z| + |z - (k : ℚ)| := abs_sub_le _ _ _
      _ < 1 / 2 + 1 / 2 := by
          exact add_lt_add_of_le_of_lt h1 h
      _ = 1 := by norm_num
  have h3 : |roundHalfEvenZ z - k| < 1 := by exact_mod_cast h2
  have h4 := abs_lt.mp h3
  omega

lemma rhe_intCast (k : ℤ) : roundHalfEvenZ (k : ℚ) = k := by
  refine rhe_eq_of_near _ _ ?_
  simp

lemma natLog10Fuel_le : ∀ (fuel n : ℕ), 1 ≤ n → n ≤ fuel →
    10 ^ natLog10Fuel fuel n ≤ n := by
  intro fuel
  induction fuel with
  | zero => intro n h1 h2; omega
  | succ fuel ih =>
    intro n h1 h2
    simp only [natLog10Fuel]
    split
    · simpa using h1
    · rename_i hge
      have h10 : 10 ≤ n := by omega
      have hd1 : 1 ≤ n / 10 := Nat.one_le_div_iff (by norm_num) |>.mpr h10
      have hdlt : n / 10 < n := Nat.div_lt_self (by omega) (by norm_num)
      have hdf : n / 10 ≤ fuel := by omega
      have := ih (n / 10) hd1 hdf
      calc 10 ^ (natLog10Fuel fuel (n / 10) + 1)
          = 10 ^ natLog10Fuel fuel (n / 10) * 10 := by ring
        _ ≤ n / 10 * 10 := by exact Nat.mul_le_mul_right 10 this
        _ ≤ n := Nat.div_mul_le_self n 10

lemma natLog10_le (n : ℕ) (h : 1 ≤ n) : 10 ^ natLog10 n ≤ n :=
  natLog10Fuel_le n n h le_rfl

lemma clogFuel_spec : ∀ (fuel : ℕ) (x : ℚ), 1 ≤ x * 10 ^ fuel →
    1 ≤ x * 10 ^ clogFuel fuel x := by
  intro fuel
  induction fuel with
  | zero => intro x h; simpa [clogFuel] using h
  | succ fuel ih =>
    intro x h
    simp only [clogFuel]
    split
    · simpa
    · have h2 : 1 ≤ x * 10 * 10 ^ fuel := by
        calc (1:ℚ) ≤ x * 10 ^ (fuel + 1) := h
          _ = x * 10 * 10 ^ fuel := by ring
      have := ih (x * 10) h2
      calc (1:ℚ) ≤ x * 10 * 10 ^ clogFuel fuel (x * 10) := this
        _ = x * 10 ^ (clogFuel fuel (x * 10) + 1) := by ring

lemma ratLog10_le (x : ℚ) (hx : 0 < x) : (10:ℚ) ^ ratLog10 x ≤ x := by
  unfold ratLog10
  split
  · rename_i h1
    have hfl : 1 ≤ ⌊x⌋₊ := Nat.one_le_iff_ne_zero.mpr (by
      have := Nat.floor_pos.mpr h1
      omega)
    have h2 : (10:ℕ) ^ natLog10 ⌊x⌋₊ ≤ ⌊x⌋₊ := natLog10_le _ hfl
    have h3 : ((10:ℕ) ^ natLog10 ⌊x⌋₊ : ℚ) ≤ (⌊x⌋₊ : ℚ) := by exact_mod_cast h2
    have h4 : (⌊x⌋₊ : ℚ) ≤ x := Nat.floor_le (le_of_lt hx)
    rw [zpow_natCast]
    calc (10:ℚ) ^ natLog10 ⌊x⌋₊ = ((10:ℕ) ^ natLog10 ⌊x⌋₊ : ℚ) := by push_cast; ring
      _ ≤ x := le_trans h3 h4
  · have hnum : 1 ≤ x.num := by
      have := Rat.num_pos.mpr hx
      omega
    have hxden : (1:ℚ) / (x.den : ℚ) ≤ x := by
      rw [div_le_iff (by exact_mod_cast x.pos)]
      have : x * (x.den : ℚ) = (x.num : ℚ) := by
        rw [mul_comm]
        exact_mod_cast Rat.den_mul_eq_num x
      rw [this]
      exact_mod_cast hnum
    have hden : (x.den : ℚ) ≤ 10 ^ x.den := by
      have h5 : x.den < 10 ^ x.den := Nat.lt_pow_self (by norm_num) x.den
      exact_mod_cast le_of_lt h5
    have hsuf : 1 ≤ x * 10 ^ x.den := by
      have hd : (0:ℚ) < (x.den : ℚ) := by exact_mod_cast x.pos
      have h1 : (1:ℚ) ≤ (1 / (x.den:ℚ)) * 10 ^ x.den := by
        rw [div_mul_eq_mul_div, one_mul, le_div_iff hd]
        linarith [hden]
      calc (1:ℚ) ≤ (1 / (x.den:ℚ)) * 10 ^ x.den := h1
        _ ≤ x * 10 ^ x.den :=
            mul_le_mul_of_nonneg_right hxden (by positivity)
    have hspec := clogFuel_spec x.den x hsuf
    rw [zpow_neg, zpow_natCast]
    have hpos : (0:ℚ) < 10 ^ clogFuel x.den x := by positivity
    rw [inv_eq_one_div, div_le_iff hpos]
    linarith [hspec]

lemma decRound_err28 (y : ℚ) (hy : 0 < y) :
    |decRound 28 y - y| ≤ y / 2 * (10:ℚ) ^ (-27 : ℤ) := by
  have h10 : (10:ℚ) ≠ 0 := by norm_num
  simp only [decRound, abs_of_pos hy]
  set e := ratLog10 y with he
  set s : ℤ := e - ((28 - 1 : ℕ) : ℤ) with hs
  have hs27 : s = e - 27 := by rw [hs]; norm_num
  set z : ℚ := y * 10 ^ (-s) with hz
  have hzs : (10:ℚ) ^ (-s) * 10 ^ s = 1 := by
    rw [← zpow_add₀ h10]
    simp
  have hyz : z * 10 ^ s = y := by
    rw [hz, mul_assoc, hzs, mul_one]
  calc |(roundHalfEvenZ z : ℚ) * 10 ^ s - y|
      = |((roundHalfEvenZ z : ℚ) - z) * 10 ^ s| := by rw [← hyz]; ring_nf
    _ = |(roundHalfEvenZ z : ℚ) - z| * |(10:ℚ) ^ s| := abs_mul _ _
    _ = |(roundHalfEvenZ z : ℚ) - z| * (10:ℚ) ^ s := by
        rw [abs_of_pos (show (0:ℚ) < (10:ℚ) ^ s from by positivity)]
    _ ≤ (1/2) * (10:ℚ) ^ s :=
        mul_le_mul_of_nonneg_right (rhe_sub_le z) (by positivity)
    _ = (1/2) * ((10:ℚ) ^ e * (10:ℚ) ^ (-27:ℤ)) := by
        rw [hs27, show e - (27:ℤ) = e + (-27) from by ring, zpow_add₀ h10]
    _ ≤ (1/2) * (y * (10:ℚ) ^ (-27:ℤ)) := by
        have hle : (10:ℚ) ^ e ≤ y := ratLog10_le y hy
        have hp : (0:ℚ) < (10:ℚ) ^ (-27:ℤ) := by positivity
        nlinarith
    _ = y / 2 * (10:ℚ) ^ (-27:ℤ) := by ring

lemma decRound_exact200 (y : ℚ) (hy : 0 < y) (n : ℤ)
    (hn : y * 200 = (n : ℚ)) (hb : y < 10 ^ (25:ℤ)) : decRound 28 y = y := by
  have h10 : (10:ℚ) ≠ 0 := by norm_num
  simp only [decRound, abs_of_pos hy]
  set e := ratLog10 y with he
  set s : ℤ := e - ((28 - 1 : ℕ) : ℤ) with hs
  have he24 : e ≤ 24 := by
    by_contra hlt
    push_neg at hlt
    have h1 : (10:ℚ) ^ (25:ℤ) ≤ (10:ℚ) ^ e :=
      zpow_le_zpow_right₀ (by norm_num) (by omega)
    have h2 := ratLog10_le y hy
    rw [← he] at h2
    linarith
  have hy200 : y = (n:ℚ) / 200 := by
    rw [eq_div_iff (by norm_num : (200:ℚ) ≠ 0)]
    exact hn
  have hz : y * (10:ℚ) ^ (-s) = ((n * 5 * 10 ^ ((24 - e).toNat) : ℤ) : ℚ) := by
    have hns : -s = 27 - e := by rw [hs]; push_cast; ring
    rw [hns, show (27:ℤ) - e = 3 + (24 - e) from by ring, zpow_add₀ h10]
    have h24 : (10:ℚ) ^ ((24:ℤ) - e) = ((10 ^ ((24 - e).toNat) : ℤ) : ℚ) := by
      push_cast
      rw [← zpow_natCast (10:ℚ) ((24 - e).toNat)]
      congr 1
      omega
    rw [h24, hy200]
    push_cast
    norm_num
    ring
  rw [hz, rhe_intCast, ← hz, mul_assoc, ← zpow_add₀ h10]
  simp

lemma quantize2_eq_of_near (t S : ℚ) (k : ℤ) (hS : S * 100 = (k : ℚ))
    (h : |t - S| < 1 / 200) : quantize2 t = S := by
  unfold quantize2
  have h2 : |t * 100 - (k : ℚ)| < 1 / 2 := by
    rw [← hS]
    calc |t * 100 - S * 100| = |t - S| * 100 := by
          rw [← sub_mul, abs_mul]
          norm_num
      _ < (1/200) * 100 := by linarith
      _ = 1/2 := by norm_num
  rw [rhe_eq_of_near _ _ h2]
  rw [div_eq_iff (by norm_num : (100:ℚ) ≠ 0)]
  linarith [hS]

lemma tenPowNeg27 : (10:ℚ) ^ (-27:ℤ) = 1 / 10 ^ 27 := by
  rw [show (-27:ℤ) = -((27:ℕ):ℤ) from rfl, zpow_neg, zpow_natCast,
    inv_eq_one_div]

lemma doubleRound_recovers (S : ℚ) (q : ℕ) (k : ℤ)
    (hq1 : 1 ≤ q) (hq2 : (q:ℚ) ≤ 10 ^ 6)
    (hS : S * 100 = (k : ℚ)) (hk : 0 < k) (hSb : S ≤ 10 ^ 10) :
    quantize2 (decRound 28 (decRound 28 (S / (q:ℚ)) * (q:ℚ))) = S := by
  have hqpos : (0:ℚ) < (q:ℚ) := by exact_mod_cast Nat.lt_of_lt_of_le Nat.zero_lt_one hq1
  have hq1Q : (1:ℚ) ≤ (q:ℚ) := by exact_mod_cast hq1
  have hSpos : 0 < S := by
    have hkQ : (0:ℚ) < (k:ℚ) := by exact_mod_cast hk
    nlinarith
  set x := S / (q:ℚ) with hxdef
  have hxpos : 0 < x := div_pos hSpos hqpos
  have hxq : x * (q:ℚ) = S := div_mul_cancel₀ S (ne_of_gt hqpos)
  have herrA := decRound_err28 x hxpos
  rw [tenPowNeg27] at herrA
  set a := decRound 28 x with hadef
  have herrA2 := abs_le.mp herrA
  have hapos : 0 < a := by nlinarith [herrA2.1, hxpos]
  have haq : |a * (q:ℚ) - S| ≤ S / 2 * (1 / 10 ^ 27) := by
    rw [← hxq, ← sub_mul, abs_mul, abs_of_pos hqpos]
    calc |a - x| * (q:ℚ) ≤ (x / 2 * (1 / 10 ^ 27)) * (q:ℚ) :=
          mul_le_mul_of_nonneg_right herrA (le_of_lt hqpos)
      _ = (x * (q:ℚ)) / 2 * (1 / 10 ^ 27) := by ring
  have haqpos : 0 < a * (q:ℚ) := mul_pos hapos hqpos
  have herrT := decRound_err28 (a * (q:ℚ)) haqpos
  rw [tenPowNeg27] at herrT
  have haq2 := abs_le.mp haq
  have herrT2 := abs_le.mp herrT
  have hfin : |decRound 28 (a * (q:ℚ)) - S| < 1 / 200 := by
    rw [abs_lt]
    constructor <;> nlinarith [herrT2.1, herrT2.2, haq2.1, haq2.2, hSb, hSpos]
  exact quantize2_eq_of_near _ S k hS hfin

lemma quantize2_decRound_eq (x : ℚ) (q : ℕ) (j : ℤ)
    (hq1 : 1 ≤ q) (hq2 : (q:ℚ) ≤ 10 ^ 6)
    (hx : 0 < x) (hxb : x ≤ 10 ^ 10)
    (hj : x * (100 * (q:ℚ)) = (j : ℚ)) :
    quantize2 (decRound 28 x) = quantize2 x := by
  have hqpos : (0:ℚ) < (q:ℚ) := by exact_mod_cast Nat.lt_of_lt_of_le Nat.zero_lt_one hq1
  by_cases htie : ∃ hh : ℤ, x * 100 = (hh : ℚ) + 1/2
  · obtain ⟨hh, hhh⟩ := htie
    have h200 : x * 200 = ((2 * hh + 1 : ℤ) : ℚ) := by push_cast; linarith
    have hb : x < 10 ^ (25:ℤ) := by
      rw [show (25:ℤ) = ((25:ℕ):ℤ) from rfl, zpow_natCast]
      calc x ≤ 10 ^ 10 := hxb
        _ < 10 ^ 25 := by norm_num
    rw [decRound_exact200 x hx _ h200 hb]
  · have hx100 : x * 100 = (j:ℚ) / (q:ℚ) := by
      rw [eq_div_iff (ne_of_gt hqpos)]
      calc x * 100 * (q:ℚ) = x * (100 * (q:ℚ)) := by ring
        _ = (j:ℚ) := hj
    set m := roundHalfEvenZ (x * 100) with hm
    have hd := abs_le.mp (by
      have := rhe_sub_le (x * 100)
      rwa [abs_sub_comm] at this : |x * 100 - (m:ℚ)| ≤ 1/2)
    have hmargin : |x * 100 - (m:ℚ)| ≤ 1/2 - 1/(2*(q:ℚ)) := by
      rcases le_or_lt (x * 100) (m:ℚ) with hside | hside
      · have hjq : (j:ℚ) / (q:ℚ) * (q:ℚ) = (j:ℚ) :=
          div_mul_cancel₀ _ (ne_of_gt hqpos)
        have hN : (x * 100 - ((m:ℚ) - 1/2)) * (2*(q:ℚ)) =
            ((2*j - (2*m-1)*q : ℤ) : ℚ) := by
          rw [hx100]
          push_cast
          linear_combination (2:ℚ) * hjq
        have hv0 : 0 ≤ x * 100 - ((m:ℚ) - 1/2) := by linarith [hd.1]
        have hNne : (2*j - (2*m-1)*q : ℤ) ≠ 0 := by
          intro h0
          apply htie
          refine ⟨m - 1, ?_⟩
          have hz : (x * 100 - ((m:ℚ) - 1/2)) * (2*(q:ℚ)) = 0 := by
            rw [hN, h0]
            norm_num
          have hz2 : x * 100 - ((m:ℚ) - 1/2) = 0 := by
            rcases mul_eq_zero.mp hz with h | h
            · exact h
            · exact absurd h (by positivity)
          push_cast
          linarith
        have hN1 : (1:ℚ) ≤ ((2*j - (2*m-1)*q : ℤ) : ℚ) := by
          have hge : (0:ℤ) ≤ 2*j - (2*m-1)*q := by
            have : (0:ℚ) ≤ ((2*j - (2*m-1)*q : ℤ) : ℚ) := by
              rw [← hN]
              exact mul_nonneg hv0 (by positivity)
            exact_mod_cast this
          have : (1:ℤ) ≤ 2*j - (2*m-1)*q := by omega
          exact_mod_cast this
        have hvge : 1/(2*(q:ℚ)) ≤ x * 100 - ((m:ℚ) - 1/2) := by
          rw [div_le_iff (by positivity)]
          calc (1:ℚ) ≤ ((2*j - (2*m-1)*q : ℤ) : ℚ) := hN1
            _ = (x * 100 - ((m:ℚ) - 1/2)) * (2*(q:ℚ)) := hN.symm
        have habs2 : |x*100 - (m:ℚ)| = (m:ℚ) - x*100 := by
          rw [abs_of_nonpos (by linarith)]
          ring
        rw [habs2]
        linarith
      · have hjq : (j:ℚ) / (q:ℚ) * (q:ℚ) = (j:ℚ) :=
          div_mul_cancel₀ _ (ne_of_gt hqpos)
        have hN : (((m:ℚ) + 1/2) - x * 100) * (2*(q:ℚ)) =
            (((2*m+1)*q - 2*j : ℤ) : ℚ) := by
          rw [hx100]
          push_cast
          linear_combination (-2:ℚ) * hjq
        have hv0 : 0 ≤ ((m:ℚ) + 1/2) - x * 100 := by linarith [hd.2]
        have hNne : ((2*m+1)*q - 2*j : ℤ) ≠ 0 := by
          intro h0
          apply htie
          refine ⟨m, ?_⟩
          have hz : (((m:ℚ) + 1/2) - x * 100) * (2*(q:ℚ)) = 0 := by
            rw [hN, h0]
            norm_num
          have hz2 : ((m:ℚ) + 1/2) - x * 100 = 0 := by
            rcases mul_eq_zero.mp hz with h | h
            · exact h
            · exact absurd h (by positivity)
          linarith
        have hN1 : (1:ℚ) ≤ (((2*m+1)*q - 2*j : ℤ) : ℚ) := by
          have hge : (0:ℤ) ≤ (2*m+1)*q - 2*j := by
            have : (0:ℚ) ≤ (((2*m+1)*q - 2*j : ℤ) : ℚ) := by
              rw [← hN]
              exact mul_nonneg hv0 (by positivity)
            exact_mod_cast this
          have : (1:ℤ) ≤ (2*m+1)*q - 2*j := by omega
          exact_mod_cast this
        have hvge : 1/(2*(q:ℚ)) ≤ ((m:ℚ) + 1/2) - x * 100 := by
          rw [div_le_iff (by positivity)]
          calc (1:ℚ) ≤ (((2*m+1)*q - 2*j : ℤ) : ℚ) := hN1
            _ = (((m:ℚ) + 1/2) - x * 100) * (2*(q:ℚ)) := hN.symm
        have habs2 : |x*100 - (m:ℚ)| = x*100 - (m:ℚ) := by
          rw [abs_of_nonneg (by linarith)]
        rw [habs2]
        linarith
    have herr := decRound_err28 x hx
    rw [tenPowNeg27] at herr
    have herr2 := abs_le.mp herr
    have hδ : |decRound 28 x * 100 - x * 100| ≤ (5:ℚ)/10^16 := by
      rw [← sub_mul, abs_mul, abs_of_pos (by norm_num : (0:ℚ) < 100)]
      calc |decRound 28 x - x| * 100 ≤ (x / 2 * (1/10^27)) * 100 :=
            mul_le_mul_of_nonneg_right herr (by norm_num)
        _ ≤ ((10:ℚ)^10 / 2 * (1/10^27)) * 100 := by nlinarith [hxb]
        _ ≤ 5/10^16 := by norm_num
    have h2q : 1/(2*(10:ℚ)^6) ≤ 1/(2*(q:ℚ)) :=
      one_div_le_one_div_of_le (by positivity) (by linarith)
    have hfin : |decRound 28 x * 100 - (m:ℚ)| < 1/2 := by
      have hδ2 := abs_le.mp hδ
      have hm2 := abs_le.mp hmargin
      rw [abs_lt]
      constructor <;> nlinarith [hδ2.1, hδ2.2, hm2.1, hm2.2, h2q]
    unfold quantize2
    rw [rhe_eq_of_near _ _ hfin, ← hm]

/-- C4: for a sale line drawing the given `(sale_price, drawn_quantity)`
pairs with total quantity `q`, the persisted blended `unit_price` is the
exact quotient Σ(price·qty)/q rounded to the money column's 2 decimals,
and the persisted `line_total` equals the exact sum Σ(price·qty) — NOT
`unit_price × quantity` recomputed after the division: the double
28-significant-digit rounding (the quotient at sales/api_views.py:469,
then the product recomputed by `SaleItem.save` at
sales/models/sale_item.py:162) stays within half a cent of the exact sum,
so the 2-decimal column quantization recovers it exactly.  Hypotheses: the
sum is a positive 2-decimal amount of at most 10^10 and the quantity is
between 1 and 10^6. -/
theorem C4_weighted_price_exact (pairs : List (ℚ × ℕ)) (q : ℕ) (k : ℤ)
    (hq1 : 1 ≤ q) (hq2 : (q:ℚ) ≤ 10 ^ 6)
    (hS : weightedTotalPrice pairs * 100 = (k : ℚ)) (hk : 0 < k)
    (hSb : weightedTotalPrice pairs ≤ 10 ^ 10) :
    persistedLineTotal pairs q = weightedTotalPrice pairs ∧
    persistedUnitPrice pairs q =
      quantize2 (weightedTotalPrice pairs / (q:ℚ)) := by
  have hqpos : (0:ℚ) < (q:ℚ) := by
    exact_mod_cast Nat.lt_of_lt_of_le Nat.zero_lt_one hq1
  constructor
  · exact doubleRound_recovers (weightedTotalPrice pairs) q k hq1 hq2 hS hk hSb
  · have hSpos : 0 < weightedTotalPrice pairs := by
      have hkQ : (0:ℚ) < (k:ℚ) := by exact_mod_cast hk
      nlinarith
    have hxpos : 0 < weightedTotalPrice pairs / (q:ℚ) := div_pos hSpos hqpos
    have hxb : weightedTotalPrice pairs / (q:ℚ) ≤ 10 ^ 10 := by
      rw [div_le_iff hqpos]
      have hq1Q : (1:ℚ) ≤ (q:ℚ) := by exact_mod_cast hq1
      nlinarith [hSb]
    have hj : (weightedTotalPrice pairs / (q:ℚ)) * (100 * (q:ℚ)) = (k:ℚ) := by
      have hc : weightedTotalPrice pairs / (q:ℚ) * (q:ℚ) =
          weightedTotalPrice pairs := div_mul_cancel₀ _ (ne_of_gt hqpos)
      calc weightedTotalPrice pairs / (q:ℚ) * (100 * (q:ℚ))
          = (weightedTotalPrice pairs / (q:ℚ) * (q:ℚ)) * 100 := by ring
        _ = weightedTotalPrice pairs * 100 := by rw [hc]
        _ = (k:ℚ) := hS
    exact quantize2_decRound_eq _ q k hq1 hq2 hxpos hxb hj

/-- Witness for C4 at the spec's example: 10 units at 1000 and 2 units at
1200 (sum 12400, quantity 12) persist `unit_price` 1033.33 and
`line_total` exactly 12400 — which differs from `12 × 1033.33 =
12399.96`. -/
theorem C4_weighted_price_exact_witness :
    (1 ≤ 12 ∧ ((12:ℕ):ℚ) ≤ 10 ^ 6 ∧
      weightedTotalPrice [((1000:ℚ), 10), (1200, 2)] * 100 =
        ((1240000:ℤ):ℚ) ∧
      (0:ℤ) < 1240000 ∧
      weightedTotalPrice [((1000:ℚ), 10), (1200, 2)] ≤ 10 ^ 10) ∧
    persistedLineTotal [((1000:ℚ), 10), (1200, 2)] 12 = 12400 ∧
    persistedUnitPrice [((1000:ℚ), 10), (1200, 2)] 12 = 103333/100 ∧
    (12400:ℚ) ≠ 12 * (103333/100) := by
  have hW : weightedTotalPrice [((1000:ℚ), 10), (1200, 2)] = 12400 := by
    norm_num [weightedTotalPrice]
  have h := C4_weighted_price_exact [((1000:ℚ), 10), (1200, 2)] 12 1240000
    (by norm_num) (by norm_num) (by rw [hW]; norm_num) (by norm_num)
    (by rw [hW]; norm_num)
  refine ⟨⟨by norm_num, by norm_num, by rw [hW]; norm_num, by norm_num,
    by rw [hW]; norm_num⟩, ?_, ?_, by norm_num⟩
  · rw [h.1, hW]
  · rw [h.2, hW]
    unfold quantize2
    rw [show (12400:ℚ)/(((12:ℕ)):ℚ)*100 = 310000/3 from by norm_num]
    rw [rhe_eq_of_near (310000/3) 103333 (by
      rw [abs_lt]
      constructor <;> norm_num)]
    norm_num

end PharmacyPos
